import Mathlib

/-!
# Performer and batch pipeline of the Miku showcases

A shallow embedding of the performer model of `examples/showcase.c` and
`examples/showcase.cpp`: the `DigitalDiva` entity with its depletable energy,
the process-wide performance counter of the C file, the callback driven
batch loop `process_songs`, the template `performConcert` and the stage flag
helpers.

Conventions of the embedding.

* A C `int` is an `Int`.  Where the source can leave the 32-bit range
  (`g_performance_count++`, `++(*counter)`) the result is reduced with
  `wrapInt32`, the two's complement value the usual targets produce for an
  overflow the C standard leaves undefined; `self->energy -= 10` is only
  reached under the guard `energy >= 10`, so its result lies in
  `[0, INT_MAX]` and is written as a plain subtraction.
* A C string is the list of its characters before the terminating NUL; a
  pointer that may be `NULL` is an `Option`.
* Output to `stdout`/`stderr` is not part of the state.
-/

set_option autoImplicit false

/-! ## Machine integers -/

/-- Largest value of a C `int` (32 bit). -/
def INT_MAX : Int := 2147483647

/-- Smallest value of a C `int` (32 bit). -/
def INT_MIN : Int := -2147483648

/-- Two's complement reduction of an integer to the range of a 32-bit `int`. -/
def wrapInt32 (x : Int) : Int := (x + 2147483648) % 4294967296 - 2147483648

/-- A C string: the characters before the terminating NUL. -/
abbrev CString := List Char

/-! ## The C showcase (`examples/showcase.c`) -/

namespace showcase_c

/-- The macro `MAX_ENERGY`. -/
def MAX_ENERGY : Int := 100

/-- The macro `MAX_NAME_LENGTH`. -/
def MAX_NAME_LENGTH : Nat := 64

/-- The enum `MikuVersion`. -/
inductive MikuVersion where
  | MIKU_V2_CLASSIC
  | MIKU_V3
  | MIKU_V4X
  | MIKU_NT
  | MIKU_SEKAI
  | MIKU_V6_AI
  deriving DecidableEq, Repr

/-- The enum `StageMode`. -/
inductive StageMode where
  | STAGE_IDLE
  | STAGE_PERFORMING
  | STAGE_HOLOGRAPHIC
  deriving DecidableEq, Repr

/-- The struct `VoiceBank`. -/
structure VoiceBank where
  name : CString
  version : MikuVersion
  frequency_min : Int
  frequency_max : Int
  is_active : Bool
  deriving DecidableEq, Repr

/-- The struct `DigitalDiva`.  Its three function pointer members are set by
`digital_diva_create` to `digital_diva_sing`, `digital_diva_get_version` and
`digital_diva_destroy` and are not data of the model; `user_data` is an
address or `NULL`. -/
structure DigitalDiva where
  name : CString
  voice_bank : VoiceBank
  energy : Int
  mode : StageMode
  user_data : Option Nat
  deriving DecidableEq, Repr

/-- The inline helper `clamp`. -/
def clamp (value min max : Int) : Int :=
  if value < min then min
  else if value > max then max
  else value

/-- The effect of `strncpy(dest, src, n)` read back as a string: the first `n`
characters of `src`. -/
def strncpy (src : CString) (n : Nat) : CString := src.take n

/-- The constructor function `digital_diva_create` for a non-null `name`.
`mallocOk` says whether `malloc` returned memory; when it did not the result
is `NULL`.  Both name buffers receive `strncpy(.., name, MAX_NAME_LENGTH - 1)`;
the source terminates `diva->name` at index `MAX_NAME_LENGTH - 1` and leaves
that byte of `voice_bank.name` unwritten, so `voice_bank.name` stands for the
characters copied. -/
def digital_diva_create (name : CString) (version : MikuVersion) (mallocOk : Bool) :
    Option DigitalDiva :=
  if mallocOk = false then none
  else
    some
      { name := strncpy name (MAX_NAME_LENGTH - 1)
        voice_bank :=
          { name := strncpy name (MAX_NAME_LENGTH - 1)
            version := version
            frequency_min := 80
            frequency_max := 1100
            is_active := true }
        energy := MAX_ENERGY
        mode := StageMode.STAGE_IDLE
        user_data := none }

/-- What a call of `digital_diva_sing` leaves behind: the returned `int`, the
object behind `self` and the global `g_performance_count`. -/
structure SingOutcome where
  ret : Int
  self : Option DigitalDiva
  g_performance_count : Int
  deriving DecidableEq, Repr

/-- The function `digital_diva_sing`, with the global `g_performance_count`
passed in and out. -/
def digital_diva_sing (self : Option DigitalDiva) (song : Option CString)
    (g_performance_count : Int) : SingOutcome :=
  match self, song with
  | none, _ => { ret := -1, self := self, g_performance_count := g_performance_count }
  | some _, none => { ret := -1, self := self, g_performance_count := g_performance_count }
  | some d, some _ =>
    if d.energy < 10 then
      { ret := -1, self := self, g_performance_count := g_performance_count }
    else
      { ret := 0
        self := some { d with energy := d.energy - 10 }
        g_performance_count := wrapInt32 (g_performance_count + 1) }

/-- The function `digital_diva_get_version`. -/
def digital_diva_get_version (self : Option DigitalDiva) : MikuVersion :=
  match self with
  | none => MikuVersion.MIKU_V2_CLASSIC
  | some d => d.voice_bank.version

/-- The function `digital_diva_destroy` seen from the caller: whether the
object behind `diva` is released (`free(diva)` is reached exactly when `diva`
is not `NULL`; the `user_data` block freed before it is not an object of the
model). -/
def digital_diva_destroy (diva : Option DigitalDiva) : Bool :=
  match diva with
  | none => false
  | some _ => true

/-- The function pointer type `SongProcessor`: a callback takes an item and the
object behind `context`, returns an `int` and leaves the object behind
`context` in a new state. -/
abbrev SongProcessor (Item Ctx : Type) := Item → Ctx → Int × Ctx

/-- The loop of `process_songs` at index `i` with `remaining = count - i`
iterations to go.  `none` is a read past the end of the array `songs`. -/
def process_songs_from {Item Ctx : Type} (songs : List Item) (processor : SongProcessor Item Ctx) :
    Nat → Nat → Ctx → Option (Int × Ctx)
  | 0, _, context => some (0, context)
  | remaining + 1, i, context =>
    match songs[i]? with
    | none => none
    | some song =>
      if (processor song context).1 ≠ 0 then some (-1, (processor song context).2)
      else process_songs_from songs processor remaining (i + 1) (processor song context).2

/-- The function `process_songs`: the returned `int` and the object behind
`context` after the call. -/
def process_songs {Item Ctx : Type} (songs : List Item) (count : Nat)
    (processor : SongProcessor Item Ctx) (context : Ctx) : Option (Int × Ctx) :=
  process_songs_from songs processor count 0 context

/-- The callback `print_song`; the object behind `context` is the `int`
counter. -/
def print_song : SongProcessor CString Int :=
  fun _song counter => (0, wrapInt32 (counter + 1))

/-- The array `songs` of `main`. -/
def main_songs : List CString :=
  ["Melt".toList, "World is Mine".toList, "Rolling Girl".toList]

/-! ### Observing the calls of a callback -/

/-- A callback that behaves as `processor` and records, in a second component
of the context, the item of each call and the context that call left. -/
def traced {Item Ctx : Type} (processor : SongProcessor Item Ctx) :
    SongProcessor Item (Ctx × List (Item × Ctx)) :=
  fun song c =>
    ((processor song c.1).1, ((processor song c.1).2, c.2 ++ [(song, (processor song c.1).2)]))

/-- The context after `processor` has been called on each of `items` in turn. -/
def feed {Item Ctx : Type} (processor : SongProcessor Item Ctx) (items : List Item)
    (context : Ctx) : Ctx :=
  items.foldl (fun c song => (processor song c).2) context

/-- The calls of `processor` on each of `items` in turn: each item with the
context its call left. -/
def calls {Item Ctx : Type} (processor : SongProcessor Item Ctx) :
    List Item → Ctx → List (Item × Ctx)
  | [], _ => []
  | song :: rest, context =>
    (song, (processor song context).2) :: calls processor rest (processor song context).2

/-- The `int` returned by the call of `processor` on item `k` of `songs`, after
its calls on the items before it. -/
def result_at {Item Ctx : Type} (processor : SongProcessor Item Ctx) (songs : List Item)
    (context : Ctx) (k : Nat) : Option Int :=
  (songs[k]?).map (fun song => (processor song (feed processor (songs.take k) context)).1)

/-- The loop of `process_songs` over the items it visits, as a recursion on
the list of items: stop with -1 at the first call that returns non-zero,
return 0 when the items are used up. -/
def run_items {Item Ctx : Type} (processor : SongProcessor Item Ctx) :
    List Item → Ctx → Int × Ctx
  | [], context => (0, context)
  | song :: rest, context =>
    if (processor song context).1 ≠ 0 then (-1, (processor song context).2)
    else run_items processor rest (processor song context).2

/-- A sample callback: it counts its calls in the context and returns `r` on
the item `bad`, 0 on every other item. -/
def failing_on {Item : Type} [DecidableEq Item] (bad : Item) (r : Int) : SongProcessor Item Nat :=
  fun song n => (if song = bad then r else 0, n + 1)

/-! ### A caller that only sings -/

/-- Consecutive calls of `digital_diva_sing` on one performer, one per song:
the returned codes, the performer and the global counter at the end. -/
def sing_all (d : DigitalDiva) (g_performance_count : Int) :
    List CString → List Int × DigitalDiva × Int
  | [] => ([], d, g_performance_count)
  | song :: rest =>
    let out := digital_diva_sing (some d) (some song) g_performance_count
    let next := sing_all (out.self.getD d) out.g_performance_count rest
    (out.ret :: next.1, next.2)

/-! ### Programs over several performers -/

/-- The memory of a run of the program: the `DigitalDiva` objects by address
(`none` once freed) and the global `g_performance_count`. -/
structure World where
  heap : List (Option DigitalDiva)
  g_performance_count : Int
  deriving DecidableEq, Repr

/-- The memory at process start. -/
def World.init : World := { heap := [], g_performance_count := 0 }

/-- A call a driver can make; pointers are addresses or `NULL`. -/
inductive Op where
  | create (name : CString) (version : MikuVersion) (mallocOk : Bool)
  | sing (self : Option Nat) (song : Option CString)
  | destroy (diva : Option Nat)
  deriving DecidableEq, Repr

/-- What a call hands back. -/
inductive Ret where
  | created (diva : Option Nat)
  | sang (code : Int)
  | destroyed
  deriving DecidableEq, Repr

/-- One call on the memory.  `none` is undefined behaviour: a pointer to an
object that was never allocated or is already freed. -/
def World.step (w : World) : Op → Option (World × Ret)
  | Op.create name version mallocOk =>
    match digital_diva_create name version mallocOk with
    | none => some (w, Ret.created none)
    | some d => some ({ w with heap := w.heap ++ [some d] }, Ret.created (some w.heap.length))
  | Op.sing none song =>
    let out := digital_diva_sing none song w.g_performance_count
    some ({ w with g_performance_count := out.g_performance_count }, Ret.sang out.ret)
  | Op.sing (some a) song =>
    match w.heap[a]? with
    | some (some d) =>
      let out := digital_diva_sing (some d) song w.g_performance_count
      some ({ heap := w.heap.set a out.self, g_performance_count := out.g_performance_count },
        Ret.sang out.ret)
    | _ => none
  | Op.destroy none => some (w, Ret.destroyed)
  | Op.destroy (some a) =>
    match w.heap[a]? with
    | some (some d) =>
      some ({ w with heap := w.heap.set a (if digital_diva_destroy (some d) then none else some d) },
        Ret.destroyed)
    | _ => none

/-- A sequence of calls, with what each handed back. -/
def World.run (w : World) : List Op → Option (World × List Ret)
  | [] => some (w, [])
  | op :: rest =>
    match w.step op with
    | none => none
    | some (w1, r) =>
      match World.run w1 rest with
      | none => none
      | some (w2, rs) => some (w2, r :: rs)

/-- The number of `sing` calls that returned success. -/
def successes (rets : List Ret) : Nat :=
  rets.count (Ret.sang 0)

/-- A performer is created at address `a`, sings ten songs and is destroyed. -/
def concert (a : Nat) : List Op :=
  Op.create "Hatsune Miku".toList MikuVersion.MIKU_V2_CLASSIC true ::
    (List.replicate 10 (Op.sing (some a) (some "Melt".toList)) ++ [Op.destroy (some a)])

/-- The concerts of `n` performers in a row, at the addresses `a`, `a + 1`, ... -/
def concerts : Nat → Nat → List Op
  | _, 0 => []
  | a, n + 1 => concert a ++ concerts (a + 1) n

/-- A sample program: two performers sing in turn, one call is made with a null
performer, and one performer is destroyed in between. -/
def duet : List Op :=
  [Op.create "Hatsune Miku".toList MikuVersion.MIKU_V2_CLASSIC true,
    Op.create "Miku NT".toList MikuVersion.MIKU_NT true,
    Op.sing (some 0) (some "Melt".toList),
    Op.sing (some 1) (some "World is Mine".toList),
    Op.sing (some 0) (some "Rolling Girl".toList),
    Op.sing none (some "Melt".toList),
    Op.destroy (some 0),
    Op.sing (some 1) (some "Melt".toList)]

/-- What the calls of `duet` hand back. -/
def duet_rets : List Ret :=
  [Ret.created (some 0), Ret.created (some 1), Ret.sang 0, Ret.sang 0, Ret.sang 0,
    Ret.sang (-1), Ret.destroyed, Ret.sang 0]

/-- The memory after `duet`. -/
def duet_world : World :=
  { heap :=
      [none,
        some
          { name := "Miku NT".toList
            voice_bank :=
              { name := "Miku NT".toList, version := MikuVersion.MIKU_NT, frequency_min := 80,
                frequency_max := 1100, is_active := true }
            energy := 80, mode := StageMode.STAGE_IDLE, user_data := none }]
    g_performance_count := 4 }

/-! ### Stage flags -/

/-- The type `StageFlags` (`uint32_t`): a natural number below `2^32`. -/
abbrev StageFlags := Nat

/-- The macro `FLAG_LIGHTS`. -/
def FLAG_LIGHTS : StageFlags := 1 <<< 0

/-- The macro `FLAG_SMOKE`. -/
def FLAG_SMOKE : StageFlags := 1 <<< 1

/-- The macro `FLAG_HOLOGRAMS`. -/
def FLAG_HOLOGRAMS : StageFlags := 1 <<< 2

/-- The operator `~` on a `uint32_t`. -/
def complement32 (x : StageFlags) : StageFlags := 4294967295 - x % 4294967296

/-- The inline helper `set_flag`: the value of `*flags` after the call. -/
def set_flag (flags flag : StageFlags) : StageFlags :=
  (flags ||| flag) % 4294967296

/-- The inline helper `clear_flag`: the value of `*flags` after the call. -/
def clear_flag (flags flag : StageFlags) : StageFlags :=
  (flags &&& complement32 flag) % 4294967296

/-- The inline helper `has_flag`. -/
def has_flag (flags flag : StageFlags) : Bool :=
  (flags &&& flag) % 4294967296 != 0

end showcase_c

/-! ## The C++ showcase (`examples/showcase.cpp`) -/

namespace miku

/-- The constant `MAX_ENERGY`. -/
def MAX_ENERGY : Int := 100

/-- The enum class `MikuVersion`. -/
inductive MikuVersion where
  | V2_Classic
  | V3
  | V4X
  | NT
  | Sekai
  | V6_AI
  deriving DecidableEq, Repr

/-- The enum class `StageMode`. -/
inductive StageMode where
  | Idle
  | Performing
  | Holographic
  deriving DecidableEq, Repr

/-- The struct `VoiceBank`. -/
structure VoiceBank where
  name : String
  version : MikuVersion
  frequencyRange : Int × Int
  isActive : Bool := false
  deriving DecidableEq, Repr

/-- The data members of the class `DigitalDiva`; `metadata_` is the key/value
content of its `MetadataStore`. -/
structure DigitalDiva where
  name_ : String
  voiceBank_ : VoiceBank
  energy_ : Int
  mode_ : StageMode
  metadata_ : List (String × String)
  deriving DecidableEq, Repr

/-- The library function `std::clamp(v, lo, hi)`. -/
def std_clamp (v lo hi : Int) : Int :=
  if v < lo then lo else if hi < v then hi else v

/-- The constructor `DigitalDiva::DigitalDiva(name, version)` (a Lean
declaration cannot carry the name of its own structure, so it is `create`, the
name the specification gives it). -/
def DigitalDiva.create (name : String) (version : MikuVersion) : DigitalDiva :=
  { name_ := name
    voiceBank_ := { name := name, version := version, frequencyRange := (80, 1100), isActive := true }
    energy_ := MAX_ENERGY
    mode_ := StageMode.Idle
    metadata_ := [] }

/-- The method `DigitalDiva::sing`: the returned message, or the `what()` of the
`std::runtime_error` it throws, together with the object after the call. -/
def DigitalDiva.sing (self : DigitalDiva) (song : String) : Except String String × DigitalDiva :=
  if self.energy_ < 10 then
    (Except.error "Low energy: Please recharge with leeks", self)
  else
    let message := "[MIKU] Now singing: " ++ song
    (Except.ok message, { self with energy_ := self.energy_ - 10 })

/-- The method `DigitalDiva::getVersion`. -/
def DigitalDiva.getVersion (self : DigitalDiva) : MikuVersion :=
  self.voiceBank_.version

/-- The method `DigitalDiva::getEnergy`. -/
def DigitalDiva.getEnergy (self : DigitalDiva) : Int :=
  self.energy_

/-- The method `DigitalDiva::setEnergy`. -/
def DigitalDiva.setEnergy (self : DigitalDiva) (value : Int) : DigitalDiva :=
  { self with energy_ := std_clamp value 0 MAX_ENERGY }

/-- Whether a call threw. -/
def threw {ε α : Type} (r : Except ε α) : Bool :=
  match r with
  | Except.error _ => true
  | Except.ok _ => false

/-- A call on a `DigitalDiva` object through its public interface. -/
inductive Call where
  | sing (song : String)
  | setEnergy (value : Int)
  | getEnergy
  | getVersion
  deriving DecidableEq, Repr

/-- The object after a call; an exception of `sing` is caught by the caller,
and the two accessors are `const`. -/
def DigitalDiva.call (self : DigitalDiva) : Call → DigitalDiva
  | Call.sing song => (self.sing song).2
  | Call.setEnergy value => self.setEnergy value
  | Call.getEnergy => self
  | Call.getVersion => self

/-- Consecutive calls of `sing` on one object, one per song, each exception
caught: whether each call threw, and the object at the end. -/
def DigitalDiva.sing_all (self : DigitalDiva) : List String → List Bool × DigitalDiva
  | [] => ([], self)
  | song :: rest =>
    let next := DigitalDiva.sing_all (self.sing song).2 rest
    (threw (self.sing song).1 :: next.1, next.2)

/-- The call `DigitalDiva()` with both arguments left to their defaults. -/
def DigitalDiva.create_default : DigitalDiva :=
  DigitalDiva.create "Hatsune Miku" MikuVersion.V2_Classic

/-- What a call of `sing` on a `Singable` performer may throw: an object of a
class derived from `std::exception`, with its `what()`, or anything else. -/
inductive Thrown where
  | exception (what : String)
  | other
  deriving DecidableEq, Repr

/-- The concept `Singable`: a type with `sing(song)` and `getVersion()`; `sing`
returns its result, or what it throws, and the performer after the call. -/
structure Singable (T : Type) where
  sing : T → String → Except Thrown String × T
  getVersion : T → MikuVersion

/-- The class `DigitalDiva` as a `Singable`; the `std::runtime_error` its `sing`
throws is a `std::exception`. -/
def DigitalDiva.singable : Singable DigitalDiva where
  sing := fun self song =>
    match self.sing song with
    | (Except.ok message, after) => (Except.ok message, after)
    | (Except.error what, after) => (Except.error (Thrown.exception what), after)
  getVersion := DigitalDiva.getVersion

/-- The template function `performConcert`: what propagates to the caller, if
anything, and the performer after the call.  The handler catches
`const std::exception&` and the loop goes on; anything else leaves the
function. -/
def performConcert {T : Type} (S : Singable T) (performer : T) : List String → Except Thrown Unit × T
  | [] => (Except.ok (), performer)
  | song :: rest =>
    match S.sing performer song with
    | (Except.ok _, after) => performConcert S after rest
    | (Except.error (Thrown.exception _), after) => performConcert S after rest
    | (Except.error Thrown.other, after) => (Except.error Thrown.other, after)

/-- A performer that behaves as the given one and records the song of each
call of `sing`, with whether the call threw. -/
def Singable.traced {T : Type} (S : Singable T) : Singable (T × List (String × Bool)) where
  sing := fun self song =>
    ((S.sing self.1 song).1, ((S.sing self.1 song).2, self.2 ++ [(song, threw (S.sing self.1 song).1)]))
  getVersion := fun self => S.getVersion self.1

end miku

/-! ## The two forms side by side -/

/-- The version tag of the C++ form that corresponds to a tag of the C form:
the two enums list the same six versions in the same order. -/
def version_of_c : showcase_c.MikuVersion → miku.MikuVersion
  | showcase_c.MikuVersion.MIKU_V2_CLASSIC => miku.MikuVersion.V2_Classic
  | showcase_c.MikuVersion.MIKU_V3 => miku.MikuVersion.V3
  | showcase_c.MikuVersion.MIKU_V4X => miku.MikuVersion.V4X
  | showcase_c.MikuVersion.MIKU_NT => miku.MikuVersion.NT
  | showcase_c.MikuVersion.MIKU_SEKAI => miku.MikuVersion.Sekai
  | showcase_c.MikuVersion.MIKU_V6_AI => miku.MikuVersion.V6_AI

/-- A name of `n` characters. -/
def long_name (n : Nat) : CString := List.replicate n 'a'

/-! ## Theorems -/

/-! ### The performer -/

/-- C1. For every performer state and every non-null song, `sing` fails (C:
returns -1, C++: throws) exactly when the energy before the call is below 10;
a failed call leaves the energy unchanged and a successful call leaves it at
the previous value minus 10. -/
theorem sing_fails_iff_low_energy :
    (∀ (d : showcase_c.DigitalDiva) (song : CString) (g : Int),
      ((showcase_c.digital_diva_sing (some d) (some song) g).ret = -1 ↔ d.energy < 10) ∧
      ((showcase_c.digital_diva_sing (some d) (some song) g).ret = 0 ↔ ¬ d.energy < 10) ∧
      ((showcase_c.digital_diva_sing (some d) (some song) g).ret = -1 →
        (showcase_c.digital_diva_sing (some d) (some song) g).self = some d) ∧
      ((showcase_c.digital_diva_sing (some d) (some song) g).ret = 0 →
        (showcase_c.digital_diva_sing (some d) (some song) g).self =
          some { d with energy := d.energy - 10 })) ∧
    (∀ (d : miku.DigitalDiva) (song : String),
      (miku.threw (d.sing song).1 = true ↔ d.energy_ < 10) ∧
      (miku.threw (d.sing song).1 = true → (d.sing song).2 = d) ∧
      (miku.threw (d.sing song).1 = false →
        (d.sing song).2 = { d with energy_ := d.energy_ - 10 })) := by
  refine ⟨fun d song g => ?_, fun d song => ?_⟩
  · by_cases h : d.energy < 10 <;> simp [showcase_c.digital_diva_sing, h]
  · by_cases h : d.energy_ < 10 <;> simp [miku.DigitalDiva.sing, miku.threw, h]

/-- C1, at a concrete state: a C performer at energy 7 is refused and keeps its
energy. -/
theorem sing_fails_iff_low_energy_witness :
    (showcase_c.digital_diva_sing
        (some { name := "Miku".toList
                voice_bank :=
                  { name := "Miku".toList, version := showcase_c.MikuVersion.MIKU_NT,
                    frequency_min := 80, frequency_max := 1100, is_active := true }
                energy := 7, mode := showcase_c.StageMode.STAGE_IDLE, user_data := none })
        (some "Melt".toList) 0).self =
      some { name := "Miku".toList
             voice_bank :=
               { name := "Miku".toList, version := showcase_c.MikuVersion.MIKU_NT,
                 frequency_min := 80, frequency_max := 1100, is_active := true }
             energy := 7, mode := showcase_c.StageMode.STAGE_IDLE, user_data := none } :=
  (sing_fails_iff_low_energy.1 _ "Melt".toList 0).2.2.1 (by decide)

/-- C3. For every integer `v` and every prior state, `getEnergy` after
`setEnergy(v)` is 0 when `v < 0`, 100 when `v > 100` and `v` otherwise; the C
helper `clamp(v, 0, MAX_ENERGY)` computes the same value. -/
theorem setEnergy_clamps (d : miku.DigitalDiva) (v : Int) :
    (d.setEnergy v).getEnergy = (if v < 0 then 0 else if v > 100 then 100 else v) ∧
    showcase_c.clamp v 0 showcase_c.MAX_ENERGY = (d.setEnergy v).getEnergy := by
  simp only [miku.DigitalDiva.setEnergy, miku.DigitalDiva.getEnergy, miku.std_clamp,
    miku.MAX_ENERGY, showcase_c.clamp, showcase_c.MAX_ENERGY, gt_iff_lt, and_self]

/-- C10. For every name and version tag, creation (C: when the allocation
succeeds) yields a performer with energy 100, mode Idle, and the version that
was passed in. -/
theorem create_initial_state :
    (∀ (name : CString) (version : showcase_c.MikuVersion),
      ∃ d, showcase_c.digital_diva_create name version true = some d ∧
        d.energy = 100 ∧ d.mode = showcase_c.StageMode.STAGE_IDLE ∧
        showcase_c.digital_diva_get_version (some d) = version) ∧
    (∀ (name : String) (version : miku.MikuVersion),
      (miku.DigitalDiva.create name version).getEnergy = 100 ∧
      (miku.DigitalDiva.create name version).mode_ = miku.StageMode.Idle ∧
      (miku.DigitalDiva.create name version).getVersion = version) := by
  refine ⟨fun name version => ⟨_, rfl, rfl, rfl, rfl⟩, fun name version => ⟨rfl, rfl, rfl⟩⟩

/-! ### The energy range -/

/-- The C `sing` keeps an energy that lies in `[0, MAX_ENERGY]` in that range,
whatever its arguments. -/
theorem digital_diva_sing_range (d : showcase_c.DigitalDiva) (song : Option CString) (g : Int)
    (d' : showcase_c.DigitalDiva)
    (hd : 0 ≤ d.energy ∧ d.energy ≤ showcase_c.MAX_ENERGY)
    (h : (showcase_c.digital_diva_sing (some d) song g).self = some d') :
    0 ≤ d'.energy ∧ d'.energy ≤ showcase_c.MAX_ENERGY := by
  cases song with
  | none =>
    simp only [showcase_c.digital_diva_sing, Option.some.injEq] at h
    subst h
    exact hd
  | some s =>
    by_cases he : d.energy < 10
    · simp only [showcase_c.digital_diva_sing, he, if_true, Option.some.injEq] at h
      subst h
      exact hd
    · simp only [showcase_c.digital_diva_sing, he, if_false, Option.some.injEq] at h
      subst h
      simp only [showcase_c.MAX_ENERGY] at hd ⊢
      constructor <;> omega

/-- One call of a driver keeps every live performer's energy in range. -/
theorem step_range (w w' : showcase_c.World) (op : showcase_c.Op) (r : showcase_c.Ret)
    (hw : ∀ d, some d ∈ w.heap → 0 ≤ d.energy ∧ d.energy ≤ showcase_c.MAX_ENERGY)
    (h : w.step op = some (w', r)) :
    ∀ d, some d ∈ w'.heap → 0 ≤ d.energy ∧ d.energy ≤ showcase_c.MAX_ENERGY := by
  intro d hd
  cases op with
  | create name version mallocOk =>
    cases mallocOk with
    | false =>
      simp only [showcase_c.World.step, showcase_c.digital_diva_create, if_true,
        Option.some.injEq, Prod.mk.injEq] at h
      obtain ⟨rfl, -⟩ := h
      exact hw d hd
    | true =>
      simp only [showcase_c.World.step, showcase_c.digital_diva_create, Bool.true_eq_false,
        if_false, Option.some.injEq, Prod.mk.injEq] at h
      obtain ⟨rfl, -⟩ := h
      simp only [List.mem_append, List.mem_singleton, Option.some.injEq] at hd
      rcases hd with hd | rfl
      · exact hw d hd
      · simp [showcase_c.MAX_ENERGY]
  | sing self song =>
    cases self with
    | none =>
      simp only [showcase_c.World.step, Option.some.injEq, Prod.mk.injEq] at h
      obtain ⟨rfl, -⟩ := h
      exact hw d hd
    | some a =>
      simp only [showcase_c.World.step] at h
      split at h
      · rename_i d0 hget
        simp only [Option.some.injEq, Prod.mk.injEq] at h
        obtain ⟨rfl, -⟩ := h
        rcases List.mem_or_eq_of_mem_set hd with hd | hd
        · exact hw d hd
        · exact digital_diva_sing_range d0 song _ d (hw d0 (List.getElem?_mem hget)) hd.symm
      · exact absurd h (by simp)
  | destroy diva =>
    cases diva with
    | none =>
      simp only [showcase_c.World.step, Option.some.injEq, Prod.mk.injEq] at h
      obtain ⟨rfl, -⟩ := h
      exact hw d hd
    | some a =>
      simp only [showcase_c.World.step] at h
      split at h
      · simp only [showcase_c.digital_diva_destroy, if_true, Option.some.injEq,
          Prod.mk.injEq] at h
        obtain ⟨rfl, -⟩ := h
        rcases List.mem_or_eq_of_mem_set hd with hd | hd
        · exact hw d hd
        · exact absurd hd (by simp)
      · exact absurd h (by simp)

/-- A sequence of calls keeps every live performer's energy in range. -/
theorem run_range (ops : List showcase_c.Op) :
    ∀ (w w' : showcase_c.World) (rets : List showcase_c.Ret),
      (∀ d, some d ∈ w.heap → 0 ≤ d.energy ∧ d.energy ≤ showcase_c.MAX_ENERGY) →
      w.run ops = some (w', rets) →
      ∀ d, some d ∈ w'.heap → 0 ≤ d.energy ∧ d.energy ≤ showcase_c.MAX_ENERGY := by
  induction ops with
  | nil =>
    intro w w' rets hw h
    simp only [showcase_c.World.run, Option.some.injEq, Prod.mk.injEq] at h
    obtain ⟨rfl, -⟩ := h
    exact hw
  | cons op rest ih =>
    intro w w' rets hw h
    simp only [showcase_c.World.run] at h
    split at h
    · exact absurd h (by simp)
    · rename_i w1 r hstep
      split at h
      · exact absurd h (by simp)
      · rename_i w2 rs hrun
        simp only [Option.some.injEq, Prod.mk.injEq] at h
        obtain ⟨rfl, -⟩ := h
        exact ih w1 w2 rs (step_range w w1 op r hw hstep) hrun

/-- A call through the public interface of the C++ class keeps the energy in
`[0, MAX_ENERGY]`. -/
theorem call_range (d : miku.DigitalDiva) (c : miku.Call)
    (hd : 0 ≤ d.energy_ ∧ d.energy_ ≤ miku.MAX_ENERGY) :
    0 ≤ (d.call c).energy_ ∧ (d.call c).energy_ ≤ miku.MAX_ENERGY := by
  cases c with
  | sing song =>
    by_cases he : d.energy_ < 10
    · simpa [miku.DigitalDiva.call, miku.DigitalDiva.sing, he] using hd
    · simp only [miku.MAX_ENERGY] at hd
      simp only [miku.DigitalDiva.call, miku.DigitalDiva.sing, he, if_false, miku.MAX_ENERGY]
      constructor <;> omega
  | setEnergy value =>
    simp only [miku.DigitalDiva.call, miku.DigitalDiva.setEnergy, miku.std_clamp,
      miku.MAX_ENERGY]
    split_ifs <;> constructor <;> omega
  | getEnergy => exact hd
  | getVersion => exact hd

/-- A sequence of calls through the public interface keeps the energy in
`[0, MAX_ENERGY]`. -/
theorem calls_range (cs : List miku.Call) :
    ∀ d : miku.DigitalDiva, (0 ≤ d.energy_ ∧ d.energy_ ≤ miku.MAX_ENERGY) →
      0 ≤ (cs.foldl miku.DigitalDiva.call d).energy_ ∧
        (cs.foldl miku.DigitalDiva.call d).energy_ ≤ miku.MAX_ENERGY := by
  induction cs with
  | nil => intro d hd; exact hd
  | cons c rest ih => intro d hd; exact ih (d.call c) (call_range d c hd)

/-- C2. A freshly constructed performer has energy `MAX_ENERGY` (100); every
operation (construction, `sing` succeeding or failing, `setEnergy` with any
integer, `getEnergy`, `getVersion`) keeps `0 <= energy <= MAX_ENERGY`; hence
the range holds in every state reached from construction by a finite sequence
of operations, in the C++ class and for every live performer of a C run. -/
theorem energy_range_invariant :
    (∀ (name : String) (version : miku.MikuVersion),
      (miku.DigitalDiva.create name version).getEnergy = miku.MAX_ENERGY ∧ miku.MAX_ENERGY = 100) ∧
    (∀ (d : miku.DigitalDiva) (c : miku.Call),
      (0 ≤ d.energy_ ∧ d.energy_ ≤ miku.MAX_ENERGY) →
      0 ≤ (d.call c).energy_ ∧ (d.call c).energy_ ≤ miku.MAX_ENERGY) ∧
    (∀ (name : String) (version : miku.MikuVersion) (cs : List miku.Call),
      0 ≤ (cs.foldl miku.DigitalDiva.call (miku.DigitalDiva.create name version)).getEnergy ∧
      (cs.foldl miku.DigitalDiva.call (miku.DigitalDiva.create name version)).getEnergy ≤
        miku.MAX_ENERGY) ∧
    (∀ (name : CString) (version : showcase_c.MikuVersion) (mallocOk : Bool)
        (d : showcase_c.DigitalDiva),
      showcase_c.digital_diva_create name version mallocOk = some d →
      d.energy = showcase_c.MAX_ENERGY ∧ showcase_c.MAX_ENERGY = 100) ∧
    (∀ (d : showcase_c.DigitalDiva) (song : Option CString) (g : Int)
        (d' : showcase_c.DigitalDiva),
      (0 ≤ d.energy ∧ d.energy ≤ showcase_c.MAX_ENERGY) →
      (showcase_c.digital_diva_sing (some d) song g).self = some d' →
      0 ≤ d'.energy ∧ d'.energy ≤ showcase_c.MAX_ENERGY) ∧
    (∀ (ops : List showcase_c.Op) (w : showcase_c.World) (rets : List showcase_c.Ret)
        (a : Nat) (d : showcase_c.DigitalDiva),
      showcase_c.World.init.run ops = some (w, rets) →
      w.heap[a]? = some (some d) →
      0 ≤ d.energy ∧ d.energy ≤ showcase_c.MAX_ENERGY) := by
  refine ⟨fun name version => ⟨rfl, rfl⟩, call_range, fun name version cs => ?_, ?_,
    fun d song g d' hd h => digital_diva_sing_range d song g d' hd h, ?_⟩
  · exact calls_range cs _ (by simp [miku.DigitalDiva.create, miku.MAX_ENERGY])
  · intro name version mallocOk d h
    cases mallocOk with
    | false => simp [showcase_c.digital_diva_create] at h
    | true =>
      simp only [showcase_c.digital_diva_create, Bool.true_eq_false, if_false,
        Option.some.injEq] at h
      subst h
      exact ⟨rfl, rfl⟩
  · intro ops w rets a d hrun hget
    exact run_range ops showcase_c.World.init w rets (by simp [showcase_c.World.init]) hrun d
      (List.getElem?_mem hget)

/-- C2, at a concrete run: after a concert of one C performer created at
address 0 (ten songs, then an eleventh that is refused), its energy is in
range. -/
theorem energy_range_invariant_witness :
    showcase_c.World.init.run
        (showcase_c.Op.create "Hatsune Miku".toList showcase_c.MikuVersion.MIKU_V2_CLASSIC true ::
          List.replicate 11 (showcase_c.Op.sing (some 0) (some "Melt".toList))) ≠ none ∧
    (∀ w rets d,
      showcase_c.World.init.run
        (showcase_c.Op.create "Hatsune Miku".toList showcase_c.MikuVersion.MIKU_V2_CLASSIC true ::
          List.replicate 11 (showcase_c.Op.sing (some 0) (some "Melt".toList))) = some (w, rets) →
      w.heap[0]? = some (some d) → 0 ≤ d.energy ∧ d.energy ≤ showcase_c.MAX_ENERGY) :=
  ⟨by decide, fun w rets d h hd => energy_range_invariant.2.2.2.2.2 _ w rets 0 d h hd⟩

/-! ### Singing until the energy is used up -/

/-- Consecutive C `sing` calls from energy `e >= 0`: the first `floor(e/10)`
return 0, the later ones -1, and the energy drops by 10 per success. -/
theorem sing_all_spec (songs : List CString) :
    ∀ (d : showcase_c.DigitalDiva) (g : Int), 0 ≤ d.energy →
      (showcase_c.sing_all d g songs).1 =
        List.replicate (min songs.length (d.energy / 10).toNat) 0 ++
          List.replicate (songs.length - (d.energy / 10).toNat) (-1) ∧
      (showcase_c.sing_all d g songs).2.1.energy =
        d.energy - 10 * (min songs.length (d.energy / 10).toNat : Nat) := by
  induction songs with
  | nil => intro d g _; simp [showcase_c.sing_all]
  | cons s rest ih =>
    intro d g h0
    by_cases he : d.energy < 10
    · have hk : (d.energy / 10).toNat = 0 := by omega
      have := ih d g h0
      simp only [hk] at this
      simp only [showcase_c.sing_all, showcase_c.digital_diva_sing, he, if_true,
        Option.getD_some, hk, this]
      simp [List.replicate_succ]
    · have h10 : 0 ≤ d.energy - 10 := by omega
      have hk : (d.energy / 10).toNat = ((d.energy - 10) / 10).toNat + 1 := by omega
      have := ih { d with energy := d.energy - 10 } (wrapInt32 (g + 1)) h10
      simp only [showcase_c.sing_all, showcase_c.digital_diva_sing, he, if_false,
        Option.getD_some, hk, this, List.length_cons, Nat.add_min_add_right,
        Nat.add_sub_add_right, List.replicate_succ, List.cons_append, true_and]
      push_cast
      ring

/-- Consecutive C++ `sing` calls from energy `e >= 0`: the first `floor(e/10)`
return normally, the later ones throw, and the energy drops by 10 per
success. -/
theorem cpp_sing_all_spec (songs : List String) :
    ∀ (d : miku.DigitalDiva), 0 ≤ d.energy_ →
      (d.sing_all songs).1 =
        List.replicate (min songs.length (d.energy_ / 10).toNat) false ++
          List.replicate (songs.length - (d.energy_ / 10).toNat) true ∧
      (d.sing_all songs).2.energy_ =
        d.energy_ - 10 * (min songs.length (d.energy_ / 10).toNat : Nat) := by
  induction songs with
  | nil => intro d _; simp [miku.DigitalDiva.sing_all]
  | cons s rest ih =>
    intro d h0
    by_cases he : d.energy_ < 10
    · have hk : (d.energy_ / 10).toNat = 0 := by omega
      have := ih d h0
      simp only [hk] at this
      simp only [miku.DigitalDiva.sing_all, miku.DigitalDiva.sing, miku.threw, he, if_true,
        hk, this]
      simp [List.replicate_succ]
    · have h10 : 0 ≤ d.energy_ - 10 := by omega
      have hk : (d.energy_ / 10).toNat = ((d.energy_ - 10) / 10).toNat + 1 := by omega
      have := ih { d with energy_ := d.energy_ - 10 } h10
      simp only [miku.DigitalDiva.sing_all, miku.DigitalDiva.sing, miku.threw, he, if_false,
        hk, this, List.length_cons, Nat.add_min_add_right,
        Nat.add_sub_add_right, List.replicate_succ, List.cons_append, true_and]
      push_cast
      ring

/-- C8. For a performer with energy `e`, `0 <= e <= 100`, on which only `sing`
is called: the first `floor(e/10)` calls succeed, every later call fails, the
energy after `n` calls is `e - 10 * min(n, floor(e/10))`, and once
`floor(e/10)` calls were made it is `e mod 10` and stays there (C and C++). -/
theorem sing_drains_energy (d : showcase_c.DigitalDiva) (c : miku.DigitalDiva) (g : Int)
    (songs : List CString) (titles : List String)
    (hd0 : 0 ≤ d.energy) (hd1 : d.energy ≤ 100) (hc0 : 0 ≤ c.energy_) (hc1 : c.energy_ ≤ 100) :
    ((showcase_c.sing_all d g songs).1 =
        List.replicate (min songs.length (d.energy / 10).toNat) 0 ++
          List.replicate (songs.length - (d.energy / 10).toNat) (-1) ∧
      (showcase_c.sing_all d g songs).2.1.energy =
        d.energy - 10 * (min songs.length (d.energy / 10).toNat : Nat) ∧
      ((d.energy / 10).toNat ≤ songs.length →
        (showcase_c.sing_all d g songs).2.1.energy = d.energy % 10)) ∧
    ((c.sing_all titles).1 =
        List.replicate (min titles.length (c.energy_ / 10).toNat) false ++
          List.replicate (titles.length - (c.energy_ / 10).toNat) true ∧
      (c.sing_all titles).2.getEnergy =
        c.energy_ - 10 * (min titles.length (c.energy_ / 10).toNat : Nat) ∧
      ((c.energy_ / 10).toNat ≤ titles.length →
        (c.sing_all titles).2.getEnergy = c.energy_ % 10)) := by
  obtain ⟨hr, he⟩ := sing_all_spec songs d g hd0
  obtain ⟨hr', he'⟩ := cpp_sing_all_spec titles c hc0
  refine ⟨⟨hr, he, fun hk => ?_⟩, ⟨hr', he', fun hk => ?_⟩⟩
  · rw [he, Nat.min_eq_right hk]
    omega
  · show (c.sing_all titles).2.energy_ = c.energy_ % 10
    rw [he', Nat.min_eq_right hk]
    omega

/-- C8, the scenario of the specification: a freshly created performer
(energy 100) sings eleven times; the first ten calls succeed, the eleventh
fails, and the energy ends at 0 (C and C++). -/
theorem sing_drains_energy_witness :
    ((showcase_c.sing_all
          { name := "Hatsune Miku".toList
            voice_bank :=
              { name := "Hatsune Miku".toList, version := showcase_c.MikuVersion.MIKU_V2_CLASSIC,
                frequency_min := 80, frequency_max := 1100, is_active := true }
            energy := 100, mode := showcase_c.StageMode.STAGE_IDLE, user_data := none }
          0 (List.replicate 11 "Melt".toList)).1 = [0, 0, 0, 0, 0, 0, 0, 0, 0, 0, -1] ∧
      (showcase_c.sing_all
          { name := "Hatsune Miku".toList
            voice_bank :=
              { name := "Hatsune Miku".toList, version := showcase_c.MikuVersion.MIKU_V2_CLASSIC,
                frequency_min := 80, frequency_max := 1100, is_active := true }
            energy := 100, mode := showcase_c.StageMode.STAGE_IDLE, user_data := none }
          0 (List.replicate 11 "Melt".toList)).2.1.energy = 0) ∧
    (((miku.DigitalDiva.create "Hatsune Miku" miku.MikuVersion.V2_Classic).sing_all
          (List.replicate 11 "Melt")).1 =
        [false, false, false, false, false, false, false, false, false, false, true] ∧
      ((miku.DigitalDiva.create "Hatsune Miku" miku.MikuVersion.V2_Classic).sing_all
          (List.replicate 11 "Melt")).2.getEnergy = 0) :=
  have h := sing_drains_energy
    { name := "Hatsune Miku".toList
      voice_bank :=
        { name := "Hatsune Miku".toList, version := showcase_c.MikuVersion.MIKU_V2_CLASSIC,
          frequency_min := 80, frequency_max := 1100, is_active := true }
      energy := 100, mode := showcase_c.StageMode.STAGE_IDLE, user_data := none }
    (miku.DigitalDiva.create "Hatsune Miku" miku.MikuVersion.V2_Classic) 0
    (List.replicate 11 "Melt".toList) (List.replicate 11 "Melt")
    (by decide) (by decide) (by decide) (by decide)
  ⟨⟨h.1.1, h.1.2.2 (by decide)⟩, ⟨h.2.1, h.2.2.2 (by decide)⟩⟩

/-! ### The batch loop -/

/-- The indexed loop of `process_songs` visits the items `songs[i], ...,
songs[i + remaining - 1]` as `run_items` does, when they all lie inside the
array. -/
theorem process_songs_from_eq {Item Ctx : Type} (songs : List Item)
    (p : showcase_c.SongProcessor Item Ctx) :
    ∀ (remaining i : Nat) (ctx : Ctx), i + remaining ≤ songs.length →
      showcase_c.process_songs_from songs p remaining i ctx =
        some (showcase_c.run_items p ((songs.drop i).take remaining) ctx) := by
  intro remaining
  induction remaining with
  | zero => intro i ctx _; simp [showcase_c.process_songs_from, showcase_c.run_items]
  | succ n ih =>
    intro i ctx h
    have hi : i < songs.length := by omega
    have hget : songs[i]? = some songs[i] := List.getElem?_eq_getElem hi
    have hdrop : songs.drop i = songs[i] :: songs.drop (i + 1) := List.drop_eq_getElem_cons hi
    simp only [showcase_c.process_songs_from, hget, hdrop, List.take_succ_cons,
      showcase_c.run_items]
    by_cases hr : (p songs[i] ctx).1 ≠ 0
    · rw [if_pos hr, if_pos hr]
    · rw [if_neg hr, if_neg hr]
      exact ih (i + 1) _ (by omega)

/-- The function `process_songs` visits the first `count` items of the array as
`run_items` does. -/
theorem process_songs_eq {Item Ctx : Type} (songs : List Item) (count : Nat)
    (p : showcase_c.SongProcessor Item Ctx) (ctx : Ctx) (h : count ≤ songs.length) :
    showcase_c.process_songs songs count p ctx =
      some (showcase_c.run_items p (songs.take count) ctx) := by
  have := process_songs_from_eq songs p count 0 ctx (by omega)
  simpa [showcase_c.process_songs] using this

/-- The result of the call on the first item. -/
theorem result_at_cons_zero {Item Ctx : Type} (p : showcase_c.SongProcessor Item Ctx)
    (s : Item) (rest : List Item) (c : Ctx) :
    showcase_c.result_at p (s :: rest) c 0 = some (p s c).1 := by
  simp [showcase_c.result_at, showcase_c.feed]

/-- The result of the call on a later item. -/
theorem result_at_cons_succ {Item Ctx : Type} (p : showcase_c.SongProcessor Item Ctx)
    (s : Item) (rest : List Item) (c : Ctx) (j : Nat) :
    showcase_c.result_at p (s :: rest) c (j + 1) = showcase_c.result_at p rest (p s c).2 j := by
  simp [showcase_c.result_at, showcase_c.feed]

/-- The calls on the first `count` items do not depend on the items after
them. -/
theorem result_at_take {Item Ctx : Type} (p : showcase_c.SongProcessor Item Ctx)
    (songs : List Item) (c : Ctx) (count j : Nat) (h : j < count) :
    showcase_c.result_at p (songs.take count) c j = showcase_c.result_at p songs c j := by
  have hmin : min j count = j := by omega
  simp [showcase_c.result_at, List.getElem?_take_of_lt h, List.take_take, hmin]

/-- The items of the recorded calls are the items themselves. -/
theorem calls_items {Item Ctx : Type} (p : showcase_c.SongProcessor Item Ctx)
    (items : List Item) : ∀ c : Ctx, (showcase_c.calls p items c).map Prod.fst = items := by
  induction items with
  | nil => intro c; rfl
  | cons s rest ih => intro c; simp [showcase_c.calls, ih]

/-- A traced callback drives the loop exactly as the callback itself. -/
theorem run_items_traced {Item Ctx : Type} (p : showcase_c.SongProcessor Item Ctx)
    (items : List Item) :
    ∀ (c : Ctx) (log : List (Item × Ctx)),
      (showcase_c.run_items (showcase_c.traced p) items (c, log)).1 =
          (showcase_c.run_items p items c).1 ∧
        (showcase_c.run_items (showcase_c.traced p) items (c, log)).2.1 =
          (showcase_c.run_items p items c).2 := by
  induction items with
  | nil => intro c log; simp [showcase_c.run_items]
  | cons s rest ih =>
    intro c log
    by_cases hr : (p s c).1 ≠ 0
    · simp [showcase_c.run_items, showcase_c.traced, hr]
    · simp only [showcase_c.run_items, showcase_c.traced, hr, if_false]
      exact ih _ _

/-- When every call succeeds the loop returns 0 after one call per item, in
order. -/
theorem run_items_all_ok {Item Ctx : Type} (p : showcase_c.SongProcessor Item Ctx)
    (items : List Item) :
    ∀ (c : Ctx) (log : List (Item × Ctx)),
      (∀ j, j < items.length → showcase_c.result_at p items c j = some 0) →
      showcase_c.run_items (showcase_c.traced p) items (c, log) =
        (0, (showcase_c.feed p items c, log ++ showcase_c.calls p items c)) := by
  induction items with
  | nil => intro c log _; simp [showcase_c.run_items, showcase_c.feed, showcase_c.calls]
  | cons s rest ih =>
    intro c log h
    have h0 : (p s c).1 = 0 := by
      have := h 0 (by simp)
      rw [result_at_cons_zero] at this
      exact Option.some.inj this
    have hrest : ∀ j, j < rest.length → showcase_c.result_at p rest (p s c).2 j = some 0 := by
      intro j hj
      rw [← result_at_cons_succ]
      exact h (j + 1) (by simpa using hj)
    simp only [showcase_c.run_items, showcase_c.traced, h0, ne_eq, not_true_eq_false, if_false]
    rw [ih _ _ hrest]
    simp [showcase_c.feed, showcase_c.calls]

/-- When the call on item `k` is the first to fail the loop returns -1 after
one call on each of the items `0..k`, in order. -/
theorem run_items_first_failure {Item Ctx : Type} (p : showcase_c.SongProcessor Item Ctx)
    (items : List Item) :
    ∀ (c : Ctx) (log : List (Item × Ctx)) (k : Nat) (r : Int),
      (∀ j, j < k → showcase_c.result_at p items c j = some 0) →
      showcase_c.result_at p items c k = some r → r ≠ 0 →
      showcase_c.run_items (showcase_c.traced p) items (c, log) =
        (-1, (showcase_c.feed p (items.take (k + 1)) c,
          log ++ showcase_c.calls p (items.take (k + 1)) c)) := by
  induction items with
  | nil => intro c log k r _ hk _; simp [showcase_c.result_at] at hk
  | cons s rest ih =>
    intro c log k r hok hk hr
    cases k with
    | zero =>
      rw [result_at_cons_zero] at hk
      have h0 : (p s c).1 ≠ 0 := by
        rw [Option.some.inj hk]
        exact hr
      simp [showcase_c.run_items, showcase_c.traced, h0, showcase_c.feed, showcase_c.calls]
    | succ k =>
      have h0 : (p s c).1 = 0 := by
        have := hok 0 (by omega)
        rw [result_at_cons_zero] at this
        exact Option.some.inj this
      have hrest : ∀ j, j < k → showcase_c.result_at p rest (p s c).2 j = some 0 := by
        intro j hj
        rw [← result_at_cons_succ]
        exact hok (j + 1) (by omega)
      rw [result_at_cons_succ] at hk
      simp only [showcase_c.run_items, showcase_c.traced, h0, ne_eq, not_true_eq_false,
        if_false]
      rw [ih _ _ k r hrest hk hr]
      simp [showcase_c.feed, showcase_c.calls]

/-- The loop returns 0 or -1 and nothing else. -/
theorem run_items_code {Item Ctx : Type} (p : showcase_c.SongProcessor Item Ctx)
    (items : List Item) :
    ∀ c : Ctx, (showcase_c.run_items p items c).1 = 0 ∨ (showcase_c.run_items p items c).1 = -1 := by
  induction items with
  | nil => intro c; exact Or.inl rfl
  | cons s rest ih =>
    intro c
    by_cases hr : (p s c).1 ≠ 0
    · right
      simp [showcase_c.run_items, hr]
    · simp only [showcase_c.run_items, hr, if_false]
      exact ih _

/-- The result of `process_songs` when the call on item `k` is the first to
fail, with and without the trace. -/
theorem process_songs_first_failure {Item Ctx : Type} (songs : List Item) (count : Nat)
    (p : showcase_c.SongProcessor Item Ctx) (ctx : Ctx) (k : Nat) (r : Int)
    (hcount : count ≤ songs.length) (hk : k < count)
    (hok : ∀ j, j < k → showcase_c.result_at p songs ctx j = some 0)
    (hfail : showcase_c.result_at p songs ctx k = some r) (hr : r ≠ 0) :
    showcase_c.process_songs songs count (showcase_c.traced p) (ctx, []) =
        some (-1, (showcase_c.feed p (songs.take (k + 1)) ctx,
          showcase_c.calls p (songs.take (k + 1)) ctx)) ∧
      showcase_c.process_songs songs count p ctx =
        some (-1, showcase_c.feed p (songs.take (k + 1)) ctx) := by
  have hmin : min (k + 1) count = k + 1 := by omega
  have hok' : ∀ j, j < k → showcase_c.result_at p (songs.take count) ctx j = some 0 := by
    intro j hj
    rw [result_at_take p songs ctx count j (by omega)]
    exact hok j hj
  have hfail' : showcase_c.result_at p (songs.take count) ctx k = some r := by
    rw [result_at_take p songs ctx count k hk]
    exact hfail
  have ht := run_items_first_failure p (songs.take count) ctx [] k r hok' hfail' hr
  rw [List.take_take, hmin, List.nil_append] at ht
  have hu := run_items_traced p (songs.take count) ctx []
  rw [ht] at hu
  refine ⟨by rw [process_songs_eq _ _ _ _ hcount, ht], ?_⟩
  rw [process_songs_eq _ _ _ _ hcount]
  exact congrArg some (Prod.ext hu.1.symm hu.2.symm)

/-- The result of `process_songs` when every call succeeds, with and without
the trace. -/
theorem process_songs_no_failure {Item Ctx : Type} (songs : List Item) (count : Nat)
    (p : showcase_c.SongProcessor Item Ctx) (ctx : Ctx)
    (hcount : count ≤ songs.length)
    (hall : ∀ j, j < count → showcase_c.result_at p songs ctx j = some 0) :
    showcase_c.process_songs songs count (showcase_c.traced p) (ctx, []) =
        some (0, (showcase_c.feed p (songs.take count) ctx,
          showcase_c.calls p (songs.take count) ctx)) ∧
      showcase_c.process_songs songs count p ctx =
        some (0, showcase_c.feed p (songs.take count) ctx) := by
  have hlen : (songs.take count).length = count := by
    rw [List.length_take]
    omega
  have hall' : ∀ j, j < (songs.take count).length →
      showcase_c.result_at p (songs.take count) ctx j = some 0 := by
    intro j hj
    rw [hlen] at hj
    rw [result_at_take p songs ctx count j hj]
    exact hall j hj
  have ht := run_items_all_ok p (songs.take count) ctx [] hall'
  rw [List.nil_append] at ht
  have hu := run_items_traced p (songs.take count) ctx []
  rw [ht] at hu
  refine ⟨by rw [process_songs_eq _ _ _ _ hcount, ht], ?_⟩
  rw [process_songs_eq _ _ _ _ hcount]
  exact congrArg some (Prod.ext hu.1.symm hu.2.symm)

/-- C5. When the callback reports failure during the run, with `k` the index of
the first item on which it does: `process_songs` calls it on exactly the items
`0..k`, once each and in order, on no later item, and returns failure (-1). -/
theorem process_songs_stops_at_first_failure {Item Ctx : Type} (songs : List Item)
    (count : Nat) (p : showcase_c.SongProcessor Item Ctx) (ctx : Ctx) (k : Nat) (r : Int)
    (hcount : count ≤ songs.length) (hk : k < count)
    (hok : ∀ j, j < k → showcase_c.result_at p songs ctx j = some 0)
    (hfail : showcase_c.result_at p songs ctx k = some r) (hr : r ≠ 0) :
    showcase_c.process_songs songs count (showcase_c.traced p) (ctx, []) =
        some (-1, (showcase_c.feed p (songs.take (k + 1)) ctx,
          showcase_c.calls p (songs.take (k + 1)) ctx)) ∧
      (showcase_c.calls p (songs.take (k + 1)) ctx).map Prod.fst = songs.take (k + 1) ∧
      showcase_c.process_songs songs count p ctx =
        some (-1, showcase_c.feed p (songs.take (k + 1)) ctx) :=
  ⟨(process_songs_first_failure songs count p ctx k r hcount hk hok hfail hr).1,
    calls_items p _ ctx,
    (process_songs_first_failure songs count p ctx k r hcount hk hok hfail hr).2⟩

/-- C5, the scenario of the specification: over three songs with a callback
that fails only on the second, the callback is called on the first and the
second song, never on the third, and the result is failure. -/
theorem process_songs_stops_at_first_failure_witness :
    showcase_c.process_songs showcase_c.main_songs 3
        (showcase_c.traced (showcase_c.failing_on "World is Mine".toList (-1))) (0, []) =
      some (-1, (2, [("Melt".toList, 1), ("World is Mine".toList, 2)])) ∧
    showcase_c.process_songs showcase_c.main_songs 3
        (showcase_c.failing_on "World is Mine".toList (-1)) 0 = some (-1, 2) :=
  have h := process_songs_stops_at_first_failure showcase_c.main_songs 3
    (showcase_c.failing_on "World is Mine".toList (-1)) 0 1 (-1)
    (by decide) (by decide) (by decide) (by decide) (by decide)
  ⟨h.1, h.2.2⟩

/-- C6. When the callback succeeds on every item, `process_songs` returns
success (0) after calling it exactly once on each item in the natural order of
the sequence; over an empty sequence (`count == 0`) it returns success without
calling the callback and leaves the context untouched. -/
theorem process_songs_all_succeed {Item Ctx : Type} (songs : List Item) (count : Nat)
    (p : showcase_c.SongProcessor Item Ctx) (ctx : Ctx)
    (hcount : count ≤ songs.length)
    (hall : ∀ j, j < count → showcase_c.result_at p songs ctx j = some 0) :
    showcase_c.process_songs songs count (showcase_c.traced p) (ctx, []) =
        some (0, (showcase_c.feed p (songs.take count) ctx,
          showcase_c.calls p (songs.take count) ctx)) ∧
      (showcase_c.calls p (songs.take count) ctx).map Prod.fst = songs.take count ∧
      showcase_c.process_songs songs count p ctx =
        some (0, showcase_c.feed p (songs.take count) ctx) ∧
      showcase_c.process_songs songs 0 (showcase_c.traced p) (ctx, []) = some (0, (ctx, [])) ∧
      showcase_c.process_songs songs 0 p ctx = some (0, ctx) :=
  ⟨(process_songs_no_failure songs count p ctx hcount hall).1,
    calls_items p _ ctx,
    (process_songs_no_failure songs count p ctx hcount hall).2, rfl, rfl⟩

/-- C6, at concrete inputs: a callback that never fails is called once on each
of three songs, in order, and the result is success. -/
theorem process_songs_all_succeed_witness :
    showcase_c.process_songs showcase_c.main_songs 3
        (showcase_c.traced (showcase_c.failing_on "Senbonzakura".toList (-1))) (0, []) =
      some (0, (3, [("Melt".toList, 1), ("World is Mine".toList, 2),
        ("Rolling Girl".toList, 3)])) ∧
    showcase_c.process_songs showcase_c.main_songs 3
        (showcase_c.failing_on "Senbonzakura".toList (-1)) 0 = some (0, 3) :=
  have h := process_songs_all_succeed showcase_c.main_songs 3
    (showcase_c.failing_on "Senbonzakura".toList (-1)) 0 (by decide) (by decide)
  ⟨h.1, h.2.2.1⟩

/-- C7. The value `process_songs` returns is 0 or -1, and whenever the first
failing call returns a non-zero code `r`, whatever `r` is and whichever item
it is, `process_songs` returns exactly -1. -/
theorem process_songs_collapses_error {Item Ctx : Type} (songs : List Item) (count : Nat)
    (p : showcase_c.SongProcessor Item Ctx) (ctx : Ctx)
    (hcount : count ≤ songs.length) :
    (∃ c, showcase_c.process_songs songs count p ctx = some (0, c) ∨
        showcase_c.process_songs songs count p ctx = some (-1, c)) ∧
      (∀ (k : Nat) (r : Int), k < count →
        (∀ j, j < k → showcase_c.result_at p songs ctx j = some 0) →
        showcase_c.result_at p songs ctx k = some r → r ≠ 0 →
        (showcase_c.process_songs songs count p ctx).map Prod.fst = some (-1)) := by
  constructor
  · refine ⟨(showcase_c.run_items p (songs.take count) ctx).2, ?_⟩
    rw [process_songs_eq _ _ _ _ hcount]
    rcases run_items_code p (songs.take count) ctx with h | h
    · exact Or.inl (congrArg some (Prod.ext h rfl))
    · exact Or.inr (congrArg some (Prod.ext h rfl))
  · intro k r hk hok hfail hr
    rw [(process_songs_first_failure songs count p ctx k r hcount hk hok hfail hr).2]
    rfl

/-- C7, at concrete inputs: a callback that returns 7 on the second of three
songs, and one that returns -2 on the third, both make `process_songs` return
-1. -/
theorem process_songs_collapses_error_witness :
    (showcase_c.process_songs showcase_c.main_songs 3
        (showcase_c.failing_on "World is Mine".toList 7) 0).map Prod.fst = some (-1) ∧
    (showcase_c.process_songs showcase_c.main_songs 3
        (showcase_c.failing_on "Rolling Girl".toList (-2)) 0).map Prod.fst = some (-1) :=
  ⟨(process_songs_collapses_error showcase_c.main_songs 3
      (showcase_c.failing_on "World is Mine".toList 7) 0 (by decide)).2 1 7
      (by decide) (by decide) (by decide) (by decide),
    (process_songs_collapses_error showcase_c.main_songs 3
      (showcase_c.failing_on "Rolling Girl".toList (-2)) 0 (by decide)).2 2 (-2)
      (by decide) (by decide) (by decide) (by decide)⟩

/-! ### The counting callback -/

/-- Below `INT_MAX` the increment of `print_song` does not wrap. -/
theorem wrapInt32_succ (c : Int) (hmin : INT_MIN ≤ c) (hmax : c + 1 ≤ INT_MAX) :
    wrapInt32 (c + 1) = c + 1 := by
  simp only [INT_MIN, INT_MAX] at hmin hmax
  simp only [wrapInt32]
  omega

/-- The callback `print_song` returns 0 on every item. -/
theorem print_song_result (songs : List CString) (c : Int) (j : Nat) (hj : j < songs.length) :
    showcase_c.result_at showcase_c.print_song songs c j = some 0 := by
  simp [showcase_c.result_at, showcase_c.print_song, List.getElem?_eq_getElem hj]

/-- The counter after `print_song` was called once per song. -/
theorem print_song_feed (songs : List CString) :
    ∀ c : Int, INT_MIN ≤ c → c + songs.length ≤ INT_MAX →
      showcase_c.feed showcase_c.print_song songs c = c + songs.length := by
  induction songs with
  | nil => intro c _ _; simp [showcase_c.feed]
  | cons s rest ih =>
    intro c hmin hmax
    simp only [List.length_cons, Nat.cast_add, Nat.cast_one] at hmax
    have hw : wrapInt32 (c + 1) = c + 1 :=
      wrapInt32_succ c hmin (by have := Int.ofNat_nonneg rest.length; simp only [Int.ofNat_eq_coe] at this; omega)
    have := ih (c + 1) (by omega) (by omega)
    simp only [showcase_c.feed, showcase_c.print_song] at this
    simp only [showcase_c.feed, List.foldl_cons, showcase_c.print_song, hw, this,
      List.length_cons, Nat.cast_add, Nat.cast_one]
    omega

/-- The counter values the calls of `print_song` leave: `c + 1`, `c + 2`, ... -/
theorem print_song_calls (songs : List CString) :
    ∀ c : Int, INT_MIN ≤ c → c + songs.length ≤ INT_MAX →
      (showcase_c.calls showcase_c.print_song songs c).map Prod.snd =
        (List.range songs.length).map (fun (i : Nat) => c + ((i : Int) + 1)) := by
  induction songs with
  | nil => intro c _ _; simp [showcase_c.calls]
  | cons s rest ih =>
    intro c hmin hmax
    simp only [List.length_cons, Nat.cast_add, Nat.cast_one] at hmax
    have hw : wrapInt32 (c + 1) = c + 1 :=
      wrapInt32_succ c hmin (by have := Int.ofNat_nonneg rest.length; simp only [Int.ofNat_eq_coe] at this; omega)
    have := ih (c + 1) (by omega) (by omega)
    simp only [showcase_c.print_song] at this
    simp only [showcase_c.calls, showcase_c.print_song, hw, List.map_cons, this,
      List.length_cons, List.range_succ_eq_map, List.map_map]
    refine congrArg₂ List.cons (by simp) (List.map_congr_left fun i _ => ?_)
    simp only [Function.comp_apply, Nat.cast_succ]
    ring

/-- C9 as stated fails at the top of the `int` range: with the counter at
`INT_MAX` one call of `print_song` wraps it to `INT_MIN`, not to
`INT_MAX + 1`. -/
theorem print_song_counter_wraps :
    showcase_c.process_songs ["Melt".toList] 1 showcase_c.print_song 2147483647 =
        some (0, -2147483648) ∧
      showcase_c.process_songs ["Melt".toList] 1 showcase_c.print_song 2147483647 ≠
        some (0, 2147483647 + 1) := by
  decide

/-- C9, amended. For every list of `n` songs and every initial counter value
`c` with `c + n` inside the `int` range, `process_songs(songs, n, print_song,
&counter)` returns success (0) and leaves `counter == c + n`; `print_song` is
called exactly once per song in input order, and its `i`-th call (1-based)
sets the counter to `c + i`. -/
theorem print_song_counts (songs : List CString) (c : Int)
    (hmin : INT_MIN ≤ c) (hmax : c + songs.length ≤ INT_MAX) :
    showcase_c.process_songs songs songs.length showcase_c.print_song c =
        some (0, c + songs.length) ∧
      showcase_c.process_songs songs songs.length (showcase_c.traced showcase_c.print_song)
          (c, []) =
        some (0, (c + songs.length, showcase_c.calls showcase_c.print_song songs c)) ∧
      (showcase_c.calls showcase_c.print_song songs c).map Prod.fst = songs ∧
      (showcase_c.calls showcase_c.print_song songs c).map Prod.snd =
        (List.range songs.length).map (fun (i : Nat) => c + ((i : Int) + 1)) := by
  have h := process_songs_no_failure songs songs.length showcase_c.print_song c (le_refl _)
    (fun j hj => print_song_result songs c j hj)
  rw [List.take_length, print_song_feed songs c hmin hmax] at h
  exact ⟨h.2, h.1, calls_items _ songs c, print_song_calls songs c hmin hmax⟩

/-- C9, the scenario of `main`: the three songs with the counter at 0 give
success, the counter 3, and the calls in input order with the counter at 1, 2
and 3. -/
theorem print_song_counts_witness :
    showcase_c.process_songs showcase_c.main_songs 3 showcase_c.print_song 0 = some (0, 3) ∧
    showcase_c.process_songs showcase_c.main_songs 3
        (showcase_c.traced showcase_c.print_song) (0, []) =
      some (0, (3, [("Melt".toList, 1), ("World is Mine".toList, 2),
        ("Rolling Girl".toList, 3)])) :=
  have h := print_song_counts showcase_c.main_songs 0 (by decide) (by decide)
  ⟨h.1, h.2.1⟩

/-! ### The global performance counter -/

/-- A call of `digital_diva_sing` that returns 0 increments the counter (in
`int` arithmetic); any other call leaves it as it was. -/
theorem digital_diva_sing_counter (self : Option showcase_c.DigitalDiva) (song : Option CString)
    (g : Int) :
    (showcase_c.digital_diva_sing self song g).g_performance_count =
      if (showcase_c.digital_diva_sing self song g).ret = 0 then wrapInt32 (g + 1) else g := by
  cases self with
  | none => simp [showcase_c.digital_diva_sing]
  | some d =>
    cases song with
    | none => simp [showcase_c.digital_diva_sing]
    | some s => by_cases he : d.energy < 10 <;> simp [showcase_c.digital_diva_sing, he]

/-- One call of a driver: the counter is incremented (in `int` arithmetic) when
the call is a `sing` that returned 0, and untouched otherwise. -/
theorem step_counter (w w' : showcase_c.World) (op : showcase_c.Op) (r : showcase_c.Ret)
    (h : w.step op = some (w', r)) :
    w'.g_performance_count =
      if r = showcase_c.Ret.sang 0 then wrapInt32 (w.g_performance_count + 1)
      else w.g_performance_count := by
  cases op with
  | create name version mallocOk =>
    cases mallocOk with
    | false =>
      simp only [showcase_c.World.step, showcase_c.digital_diva_create, if_true,
        Option.some.injEq, Prod.mk.injEq] at h
      obtain ⟨rfl, rfl⟩ := h
      simp
    | true =>
      simp only [showcase_c.World.step, showcase_c.digital_diva_create, Bool.true_eq_false,
        if_false, Option.some.injEq, Prod.mk.injEq] at h
      obtain ⟨rfl, rfl⟩ := h
      simp
  | sing self song =>
    cases self with
    | none =>
      simp only [showcase_c.World.step, Option.some.injEq, Prod.mk.injEq] at h
      obtain ⟨rfl, rfl⟩ := h
      simp [digital_diva_sing_counter]
    | some a =>
      simp only [showcase_c.World.step] at h
      split at h
      · simp only [Option.some.injEq, Prod.mk.injEq] at h
        obtain ⟨rfl, rfl⟩ := h
        simp [digital_diva_sing_counter]
      · exact absurd h (by simp)
  | destroy diva =>
    cases diva with
    | none =>
      simp only [showcase_c.World.step, Option.some.injEq, Prod.mk.injEq] at h
      obtain ⟨rfl, rfl⟩ := h
      simp
    | some a =>
      simp only [showcase_c.World.step] at h
      split at h
      · simp only [Option.some.injEq, Prod.mk.injEq] at h
        obtain ⟨rfl, rfl⟩ := h
        simp
      · exact absurd h (by simp)

/-- The count of successes of a sequence of calls, one call at a time. -/
theorem successes_cons (r : showcase_c.Ret) (rs : List showcase_c.Ret) :
    showcase_c.successes (r :: rs) =
      showcase_c.successes rs + if r = showcase_c.Ret.sang 0 then 1 else 0 := by
  by_cases h : r = showcase_c.Ret.sang 0
  · simp [showcase_c.successes, h]
  · simp [showcase_c.successes, h, List.count_cons]

/-- After a sequence of calls the counter is its start value plus the number of
successful `sing` calls, in `int` arithmetic. -/
theorem run_counter (ops : List showcase_c.Op) :
    ∀ (w w' : showcase_c.World) (rets : List showcase_c.Ret),
      INT_MIN ≤ w.g_performance_count → w.g_performance_count ≤ INT_MAX →
      w.run ops = some (w', rets) →
      w'.g_performance_count = wrapInt32 (w.g_performance_count + showcase_c.successes rets) := by
  induction ops with
  | nil =>
    intro w w' rets hmin hmax h
    simp only [showcase_c.World.run, Option.some.injEq, Prod.mk.injEq] at h
    obtain ⟨rfl, rfl⟩ := h
    simp only [INT_MIN, INT_MAX] at hmin hmax
    simp only [showcase_c.successes, List.count_nil, Nat.cast_zero, add_zero, wrapInt32]
    omega
  | cons op rest ih =>
    intro w w' rets hmin hmax h
    simp only [showcase_c.World.run] at h
    split at h
    · exact absurd h (by simp)
    · rename_i w1 r hstep
      split at h
      · exact absurd h (by simp)
      · rename_i w2 rs hrun
        simp only [Option.some.injEq, Prod.mk.injEq] at h
        obtain ⟨rfl, rfl⟩ := h
        have h1 := step_counter w w1 op r hstep
        simp only [INT_MIN, INT_MAX] at hmin hmax
        have hr1 : INT_MIN ≤ w1.g_performance_count ∧ w1.g_performance_count ≤ INT_MAX := by
          rw [h1]
          simp only [INT_MIN, INT_MAX, wrapInt32]
          split_ifs <;> constructor <;> omega
        rw [ih w1 w2 rs hr1.1 hr1.2 hrun, h1, successes_cons]
        simp only [wrapInt32]
        split_ifs <;> push_cast <;> omega

/-- A call followed by a sequence of calls. -/
theorem run_cons_of_step (w w1 w2 : showcase_c.World) (op : showcase_c.Op)
    (rest : List showcase_c.Op) (r : showcase_c.Ret) (rs : List showcase_c.Ret)
    (hstep : w.step op = some (w1, r)) (hrun : w1.run rest = some (w2, rs)) :
    w.run (op :: rest) = some (w2, r :: rs) := by
  simp only [showcase_c.World.run, hstep, hrun]

/-- Two sequences of calls run one after the other. -/
theorem run_append (ops1 ops2 : List showcase_c.Op) :
    ∀ (w w1 w2 : showcase_c.World) (r1 r2 : List showcase_c.Ret),
      w.run ops1 = some (w1, r1) → w1.run ops2 = some (w2, r2) →
      w.run (ops1 ++ ops2) = some (w2, r1 ++ r2) := by
  induction ops1 with
  | nil =>
    intro w w1 w2 r1 r2 h1 h2
    simp only [showcase_c.World.run, Option.some.injEq, Prod.mk.injEq] at h1
    obtain ⟨rfl, rfl⟩ := h1
    simpa using h2
  | cons op rest ih =>
    intro w w1 w2 r1 r2 h1 h2
    simp only [showcase_c.World.run] at h1
    split at h1
    · exact absurd h1 (by simp)
    · rename_i wa r hstep
      split at h1
      · exact absurd h1 (by simp)
      · rename_i wb rs hrun
        simp only [Option.some.injEq, Prod.mk.injEq] at h1
        obtain ⟨rfl, rfl⟩ := h1
        exact run_cons_of_step w wa w2 op (rest ++ ops2) r (rs ++ r2) hstep
          (ih wa wb w2 rs r2 hrun h2)

/-- A live performer with enough energy sings `n` songs in a row: every call
succeeds. -/
theorem run_sings (a : Nat) (song : CString) (n : Nat) :
    ∀ (w : showcase_c.World) (d : showcase_c.DigitalDiva),
      w.heap[a]? = some (some d) → 10 * (n : Int) ≤ d.energy →
      ∃ w' rets,
        w.run (List.replicate n (showcase_c.Op.sing (some a) (some song))) = some (w', rets) ∧
        w'.heap.length = w.heap.length ∧
        (∃ d', w'.heap[a]? = some (some d')) ∧
        showcase_c.successes rets = n := by
  induction n with
  | zero =>
    intro w d hd _
    exact ⟨w, [], rfl, rfl, ⟨d, hd⟩, rfl⟩
  | succ n ih =>
    intro w d hd he
    have he10 : ¬ d.energy < 10 := by push_cast at he; omega
    have ha : a < w.heap.length := by
      rcases List.getElem?_eq_some.mp hd with ⟨h, -⟩
      exact h
    have hstep : w.step (showcase_c.Op.sing (some a) (some song)) =
        some ({ heap := w.heap.set a (some { d with energy := d.energy - 10 }),
                g_performance_count := wrapInt32 (w.g_performance_count + 1) },
          showcase_c.Ret.sang 0) := by
      simp [showcase_c.World.step, hd, showcase_c.digital_diva_sing, he10]
    obtain ⟨w', rets, hrun, hlen, hlive, hs⟩ :=
      ih { heap := w.heap.set a (some { d with energy := d.energy - 10 }),
           g_performance_count := wrapInt32 (w.g_performance_count + 1) }
        { d with energy := d.energy - 10 }
        (by simp [List.getElem?_set_self ha]) (by push_cast at he; simp only; omega)
    refine ⟨w', showcase_c.Ret.sang 0 :: rets, ?_, ?_, hlive, ?_⟩
    · exact run_cons_of_step w _ w' _ _ _ rets hstep hrun
    · simpa using hlen
    · rw [successes_cons, hs]
      simp

/-- One concert at the next free address runs without undefined behaviour,
takes one more address and counts ten successes. -/
theorem run_concert (w : showcase_c.World) (a : Nat) (ha : w.heap.length = a) :
    ∃ w' rets, w.run (showcase_c.concert a) = some (w', rets) ∧
      w'.heap.length = a + 1 ∧ showcase_c.successes rets = 10 := by
  obtain ⟨d0, hd0, he0⟩ : ∃ d0, showcase_c.digital_diva_create "Hatsune Miku".toList
      showcase_c.MikuVersion.MIKU_V2_CLASSIC true = some d0 ∧ d0.energy = 100 :=
    ⟨_, rfl, rfl⟩
  have hstep : w.step (showcase_c.Op.create "Hatsune Miku".toList
      showcase_c.MikuVersion.MIKU_V2_CLASSIC true) =
      some ({ w with heap := w.heap ++ [some d0] }, showcase_c.Ret.created (some a)) := by
    simp only [showcase_c.World.step, hd0, ha]
  have hget : ({ w with heap := w.heap ++ [some d0] } : showcase_c.World).heap[a]? =
      some (some d0) := by
    subst ha
    simp
  obtain ⟨w1, r1, hrun1, hlen1, ⟨d1, hlive1⟩, hs1⟩ :=
    run_sings a "Melt".toList 10 { w with heap := w.heap ++ [some d0] } d0 hget
      (by rw [he0]; decide)
  have hdestroy : w1.run [showcase_c.Op.destroy (some a)] =
      some ({ w1 with heap := w1.heap.set a none }, [showcase_c.Ret.destroyed]) := by
    simp [showcase_c.World.run, showcase_c.World.step, hlive1, showcase_c.digital_diva_destroy]
  have hrun := run_append _ _ _ _ _ _ _ hrun1 hdestroy
  refine ⟨{ w1 with heap := w1.heap.set a none },
    showcase_c.Ret.created (some a) :: (r1 ++ [showcase_c.Ret.destroyed]), ?_, ?_, ?_⟩
  · exact run_cons_of_step w _ _ _ _ _ _ hstep hrun
  · simp only [List.length_set, hlen1, List.length_append, List.length_singleton, ha]
  · rw [successes_cons]
    simp only [showcase_c.successes, List.count_append] at hs1 ⊢
    rw [hs1]
    simp

/-- The concerts of `n` performers in a row run without undefined behaviour and
count `10 * n` successes. -/
theorem run_concerts (n : Nat) :
    ∀ (w : showcase_c.World) (a : Nat), w.heap.length = a →
      ∃ w' rets, w.run (showcase_c.concerts a n) = some (w', rets) ∧
        w'.heap.length = a + n ∧ showcase_c.successes rets = 10 * n := by
  induction n with
  | zero =>
    intro w a ha
    exact ⟨w, [], rfl, by simpa using ha, rfl⟩
  | succ n ih =>
    intro w a ha
    obtain ⟨w1, r1, hrun1, hlen1, hs1⟩ := run_concert w a ha
    obtain ⟨w2, r2, hrun2, hlen2, hs2⟩ := ih w1 (a + 1) hlen1
    refine ⟨w2, r1 ++ r2, ?_, by omega, ?_⟩
    · simp only [showcase_c.concerts]
      exact run_append _ _ _ _ _ _ _ hrun1 hrun2
    · simp only [showcase_c.successes, List.count_append] at hs1 hs2 ⊢
      omega

/-- C4 as stated fails once the counter passes `INT_MAX`: the concerts of
214748365 performers, ten songs each, run without undefined behaviour and
count 2147483650 successful `sing` calls, while `g_performance_count`, an
`int`, ends at -2147483646. -/
theorem performance_count_wraps :
    ∃ w rets,
      showcase_c.World.init.run (showcase_c.concerts 0 214748365) = some (w, rets) ∧
      showcase_c.successes rets = 2147483650 ∧
      w.g_performance_count = -2147483646 ∧
      w.g_performance_count ≠ (showcase_c.successes rets : Int) := by
  obtain ⟨w, rets, hrun, -, hs⟩ := run_concerts 214748365 showcase_c.World.init 0 rfl
  have hs' : showcase_c.successes rets = 2147483650 := by rw [hs]
  have hg := run_counter _ showcase_c.World.init w rets (by decide) (by decide) hrun
  rw [hs'] at hg
  have hv : w.g_performance_count = -2147483646 := by
    rw [hg]
    simp only [showcase_c.World.init, wrapInt32]
    norm_num
  refine ⟨w, rets, hrun, hs', hv, ?_⟩
  rw [hv, hs']
  norm_num

/-- C4, amended. Starting from `g_performance_count == 0`, for every finite
interleaved sequence of create, sing and destroy calls over any number of
performers in which at most `INT_MAX` sing calls return success, the counter
equals the number of sing calls that returned success; a failed sing, a
construction and a destruction leave the counter unchanged, and a successful
sing adds exactly 1 while the counter is below `INT_MAX`. -/
theorem performance_count_total (ops : List showcase_c.Op) (w : showcase_c.World)
    (rets : List showcase_c.Ret)
    (hrun : showcase_c.World.init.run ops = some (w, rets))
    (hmax : (showcase_c.successes rets : Int) ≤ INT_MAX) :
    w.g_performance_count = (showcase_c.successes rets : Int) ∧
      (∀ (w0 w1 : showcase_c.World) (op : showcase_c.Op) (r : showcase_c.Ret),
        w0.step op = some (w1, r) → r ≠ showcase_c.Ret.sang 0 →
        w1.g_performance_count = w0.g_performance_count) ∧
      (∀ (w0 w1 : showcase_c.World) (op : showcase_c.Op) (r : showcase_c.Ret),
        w0.step op = some (w1, r) → r = showcase_c.Ret.sang 0 →
        INT_MIN ≤ w0.g_performance_count → w0.g_performance_count < INT_MAX →
        w1.g_performance_count = w0.g_performance_count + 1) := by
  refine ⟨?_, ?_, ?_⟩
  · rw [run_counter ops showcase_c.World.init w rets (by decide) (by decide) hrun]
    simp only [INT_MAX] at hmax
    simp only [showcase_c.World.init, wrapInt32]
    omega
  · intro w0 w1 op r hstep hr
    rw [step_counter w0 w1 op r hstep, if_neg hr]
  · intro w0 w1 op r hstep hr hmin hlt
    rw [step_counter w0 w1 op r hstep, if_pos hr]
    exact wrapInt32_succ _ hmin (by simp only [INT_MAX] at hlt ⊢; omega)

/-- C4, at a concrete run: two performers sing in turn, one call is made with
a null performer and fails, one performer is destroyed in between; the four
successful calls are counted and nothing else is. -/
theorem performance_count_total_witness :
    showcase_c.World.init.run showcase_c.duet =
        some (showcase_c.duet_world, showcase_c.duet_rets) ∧
      showcase_c.duet_world.g_performance_count = 4 ∧
      showcase_c.successes showcase_c.duet_rets = 4 ∧
      showcase_c.duet_world.g_performance_count =
        (showcase_c.successes showcase_c.duet_rets : Int) :=
  ⟨by decide, rfl, by decide,
    (performance_count_total showcase_c.duet showcase_c.duet_world showcase_c.duet_rets
      (by decide) (by decide)).1⟩

/-! ### The stored name -/

/-- C11 as stated fails: the C form keeps 63 characters of a name of 64, not
the name itself, and the C++ form keeps a name of 65 characters whole, not its
first 64. -/
theorem name_not_cut_at_64 :
    (∃ d, showcase_c.digital_diva_create (long_name 64)
          showcase_c.MikuVersion.MIKU_V2_CLASSIC true = some d ∧
        d.name = long_name 63 ∧ d.name ≠ long_name 64) ∧
    ((miku.DigitalDiva.create (String.mk (long_name 65)) miku.MikuVersion.V2_Classic).name_ =
        String.mk (long_name 65) ∧
      (miku.DigitalDiva.create (String.mk (long_name 65)) miku.MikuVersion.V2_Classic).name_ ≠
        String.mk ((long_name 65).take 64)) := by
  refine ⟨⟨_, rfl, by decide, by decide⟩, rfl, by decide⟩

/-- C11, amended. For every non-null name passed to create, the identity
stored by the C form is the name truncated to `MAX_NAME_LENGTH - 1 = 63` code
units: the input itself when it has at most 63 code units, its first 63 code
units when it is longer; the C++ form stores the name unchanged whatever its
length; a too-long name is never rejected. -/
theorem name_cut_at_63 :
    (∀ (name : CString) (version : showcase_c.MikuVersion),
      ∃ d, showcase_c.digital_diva_create name version true = some d ∧
        d.name = name.take (showcase_c.MAX_NAME_LENGTH - 1) ∧
        showcase_c.MAX_NAME_LENGTH - 1 = 63 ∧
        (name.length ≤ 63 → d.name = name) ∧
        (63 < name.length → d.name = name.take 63 ∧ d.name.length = 63)) ∧
    (∀ (name : String) (version : miku.MikuVersion),
      (miku.DigitalDiva.create name version).name_ = name) := by
  refine ⟨fun name version => ⟨_, rfl, rfl, rfl, fun h => ?_, fun h => ⟨rfl, ?_⟩⟩,
    fun name version => rfl⟩
  · exact List.take_of_length_le h
  · show (name.take 63).length = 63
    rw [List.length_take]
    omega

/-- C11, at concrete names: a name of 12 characters is stored whole and a name
of 70 characters is stored as its first 63. -/
theorem name_cut_at_63_witness :
    (∃ d, showcase_c.digital_diva_create "Hatsune Miku".toList
          showcase_c.MikuVersion.MIKU_V2_CLASSIC true = some d ∧
        d.name = "Hatsune Miku".toList) ∧
    (∃ d, showcase_c.digital_diva_create (long_name 70)
          showcase_c.MikuVersion.MIKU_V2_CLASSIC true = some d ∧
        d.name = long_name 63) :=
  ⟨(name_cut_at_63.1 "Hatsune Miku".toList showcase_c.MikuVersion.MIKU_V2_CLASSIC).imp
      fun _ h => ⟨h.1, h.2.2.2.1 (by decide)⟩,
    (name_cut_at_63.1 (long_name 70) showcase_c.MikuVersion.MIKU_V2_CLASSIC).imp
      fun _ h => ⟨h.1, (h.2.2.2.2 (by decide)).1.trans (by decide)⟩⟩

/-- C12 as stated fails: a performer created with the empty name has the empty
name as its identity, in both forms. -/
theorem empty_name_kept :
    (∃ d, showcase_c.digital_diva_create [] showcase_c.MikuVersion.MIKU_V2_CLASSIC true =
        some d ∧ d.name = []) ∧
    (miku.DigitalDiva.create "" miku.MikuVersion.V2_Classic).name_ = "" :=
  ⟨⟨_, rfl, rfl⟩, rfl⟩

/-- C12, amended. Creating a performer with an empty name does not fail, and
the name is stored as it is given (cut to 63 code units in C): the identity of
the constructed performer is empty exactly when the name passed is empty.  The
C++ default `"Hatsune Miku"` stands in only for an argument that is left
out. -/
theorem name_stored_as_given :
    (∀ (name : CString) (version : showcase_c.MikuVersion),
      ∃ d, showcase_c.digital_diva_create name version true = some d ∧
        (d.name = [] ↔ name = [])) ∧
    (∀ (name : String) (version : miku.MikuVersion),
      (miku.DigitalDiva.create name version).name_ = name ∧
      ((miku.DigitalDiva.create name version).name_ = "" ↔ name = "")) ∧
    miku.DigitalDiva.create_default.name_ = "Hatsune Miku" := by
  refine ⟨fun name version => ⟨_, rfl, ?_⟩, fun name version => ⟨rfl, Iff.rfl⟩, rfl⟩
  show name.take 63 = [] ↔ name = []
  cases name <;> simp

/-! ### What the mutators leave alone -/

/-- The C `sing` changes no member but the energy, whatever its arguments. -/
theorem digital_diva_sing_frame (d : showcase_c.DigitalDiva) (song : Option CString) (g : Int) :
    ∃ e, (showcase_c.digital_diva_sing (some d) song g).self = some { d with energy := e } := by
  cases song with
  | none => exact ⟨d.energy, rfl⟩
  | some s =>
    by_cases he : d.energy < 10
    · exact ⟨d.energy, by simp [showcase_c.digital_diva_sing, he]⟩
    · exact ⟨d.energy - 10, by simp [showcase_c.digital_diva_sing, he]⟩

/-- Consecutive C `sing` calls change no member but the energy. -/
theorem sing_all_frame (songs : List CString) :
    ∀ (d : showcase_c.DigitalDiva) (g : Int),
      ∃ e, (showcase_c.sing_all d g songs).2.1 = { d with energy := e } := by
  induction songs with
  | nil => intro d g; exact ⟨d.energy, rfl⟩
  | cons s rest ih =>
    intro d g
    obtain ⟨e, he⟩ := digital_diva_sing_frame d (some s) g
    obtain ⟨e', he'⟩ := ih { d with energy := e }
      (showcase_c.digital_diva_sing (some d) (some s) g).g_performance_count
    refine ⟨e', ?_⟩
    simp only [showcase_c.sing_all, he, Option.getD_some]
    exact he'

/-- A call through the public interface of the C++ class changes no member but
the energy. -/
theorem call_frame (d : miku.DigitalDiva) (c : miku.Call) :
    d.call c = { d with energy_ := (d.call c).energy_ } := by
  cases c with
  | sing song =>
    by_cases he : d.energy_ < 10 <;> simp [miku.DigitalDiva.call, miku.DigitalDiva.sing, he]
  | setEnergy value => simp [miku.DigitalDiva.call, miku.DigitalDiva.setEnergy]
  | getEnergy => rfl
  | getVersion => rfl

/-- A sequence of calls through the public interface changes no member but the
energy. -/
theorem calls_frame (cs : List miku.Call) :
    ∀ d : miku.DigitalDiva,
      cs.foldl miku.DigitalDiva.call d =
        { d with energy_ := (cs.foldl miku.DigitalDiva.call d).energy_ } := by
  induction cs with
  | nil => intro d; rfl
  | cons c rest ih =>
    intro d
    have h1 := ih (d.call c)
    have h2 := call_frame d c
    simp only [List.foldl_cons]
    rw [h1]
    rw [h2]

/-- C13. Every `sing` call, successful or failed, and every `setEnergy` call
leaves every member other than the energy unchanged; hence after any finite
sequence of such calls on a performer created with version `v` the version is
still `v`, the frequency range is still (80, 1100) and the mode is still
Idle. -/
theorem mutators_frame :
    (∀ (d : showcase_c.DigitalDiva) (song : Option CString) (g : Int),
      ∃ e, (showcase_c.digital_diva_sing (some d) song g).self = some { d with energy := e }) ∧
    (∀ (d : miku.DigitalDiva) (song : String),
      (d.sing song).2 = { d with energy_ := (d.sing song).2.energy_ }) ∧
    (∀ (d : miku.DigitalDiva) (value : Int),
      d.setEnergy value = { d with energy_ := (d.setEnergy value).energy_ }) ∧
    (∀ (name : String) (v : miku.MikuVersion) (cs : List miku.Call),
      (cs.foldl miku.DigitalDiva.call (miku.DigitalDiva.create name v)).getVersion = v ∧
      (cs.foldl miku.DigitalDiva.call (miku.DigitalDiva.create name v)).voiceBank_.frequencyRange =
        (80, 1100) ∧
      (cs.foldl miku.DigitalDiva.call (miku.DigitalDiva.create name v)).mode_ =
        miku.StageMode.Idle ∧
      (cs.foldl miku.DigitalDiva.call (miku.DigitalDiva.create name v)).name_ = name) ∧
    (∀ (name : CString) (v : showcase_c.MikuVersion) (g : Int) (songs : List CString),
      ∃ d0, showcase_c.digital_diva_create name v true = some d0 ∧
        showcase_c.digital_diva_get_version (some (showcase_c.sing_all d0 g songs).2.1) = v ∧
        (showcase_c.sing_all d0 g songs).2.1.voice_bank.frequency_min = 80 ∧
        (showcase_c.sing_all d0 g songs).2.1.voice_bank.frequency_max = 1100 ∧
        (showcase_c.sing_all d0 g songs).2.1.mode = showcase_c.StageMode.STAGE_IDLE ∧
        (showcase_c.sing_all d0 g songs).2.1.name = d0.name) := by
  refine ⟨digital_diva_sing_frame, fun d song => call_frame d (miku.Call.sing song),
    fun d value => call_frame d (miku.Call.setEnergy value), fun name v cs => ?_,
    fun name v g songs => ⟨_, rfl, ?_⟩⟩
  · rw [calls_frame cs]
    exact ⟨rfl, rfl, rfl, rfl⟩
  · obtain ⟨e, he⟩ := sing_all_frame songs
      { name := showcase_c.strncpy name (showcase_c.MAX_NAME_LENGTH - 1)
        voice_bank :=
          { name := showcase_c.strncpy name (showcase_c.MAX_NAME_LENGTH - 1)
            version := v
            frequency_min := 80
            frequency_max := 1100
            is_active := true }
        energy := showcase_c.MAX_ENERGY
        mode := showcase_c.StageMode.STAGE_IDLE
        user_data := none } g
    rw [he]
    exact ⟨rfl, rfl, rfl, rfl, rfl⟩

/-! ### Recovering from low energy -/

/-- C14. For every performer state and every integer `v >= 10`, `setEnergy(v)`
followed by `sing(song)` succeeds and leaves the energy at
`min(v, MAX_ENERGY) - 10`; for every `v < 10` the `sing` after `setEnergy(v)`
fails. -/
theorem low_energy_recoverable (d : miku.DigitalDiva) (song : String) (v : Int) :
    (10 ≤ v →
      miku.threw ((d.setEnergy v).sing song).1 = false ∧
      ((d.setEnergy v).sing song).2.getEnergy = min v miku.MAX_ENERGY - 10) ∧
    (v < 10 → miku.threw ((d.setEnergy v).sing song).1 = true) := by
  constructor
  · intro hv
    have hc : ¬ miku.std_clamp v 0 miku.MAX_ENERGY < 10 := by
      simp only [miku.std_clamp, miku.MAX_ENERGY]
      split_ifs <;> omega
    simp only [miku.DigitalDiva.setEnergy, miku.DigitalDiva.sing, hc, if_false, miku.threw,
      miku.DigitalDiva.getEnergy, true_and]
    simp only [miku.std_clamp, miku.MAX_ENERGY]
    split_ifs <;> omega
  · intro hv
    have hc : miku.std_clamp v 0 miku.MAX_ENERGY < 10 := by
      simp only [miku.std_clamp, miku.MAX_ENERGY]
      split_ifs <;> omega
    simp only [miku.DigitalDiva.setEnergy, miku.DigitalDiva.sing, hc, if_true, miku.threw]

/-- C14, at a concrete state: a performer whose energy is used up is set to
250, which is stored as 100, sings, and is left with 90; set to 9, or to -3,
it cannot sing. -/
theorem low_energy_recoverable_witness :
    (miku.threw
        ((((miku.DigitalDiva.create "Hatsune Miku" miku.MikuVersion.V2_Classic).setEnergy
          0).setEnergy 250).sing "Melt").1 = false ∧
      ((((miku.DigitalDiva.create "Hatsune Miku" miku.MikuVersion.V2_Classic).setEnergy
          0).setEnergy 250).sing "Melt").2.getEnergy = 90) ∧
    miku.threw
        ((((miku.DigitalDiva.create "Hatsune Miku" miku.MikuVersion.V2_Classic).setEnergy
          0).setEnergy 9).sing "Melt").1 = true ∧
    miku.threw
        ((((miku.DigitalDiva.create "Hatsune Miku" miku.MikuVersion.V2_Classic).setEnergy
          0).setEnergy (-3)).sing "Melt").1 = true :=
  ⟨(low_energy_recoverable _ "Melt" 250).1 (by decide),
    (low_energy_recoverable _ "Melt" 9).2 (by decide),
    (low_energy_recoverable _ "Melt" (-3)).2 (by decide)⟩

/-! ### The song and the null checks -/

/-- C15. For every performer state and any two non-null songs, the empty one
included, `sing` gives the same status, the same resulting energy and the same
global performance counter: the C outcomes are equal as a whole, and the C++
calls agree on whether they throw and on the object they leave. -/
theorem sing_ignores_song :
    (∀ (d : showcase_c.DigitalDiva) (s1 s2 : CString) (g : Int),
      showcase_c.digital_diva_sing (some d) (some s1) g =
        showcase_c.digital_diva_sing (some d) (some s2) g) ∧
    (∀ (d : showcase_c.DigitalDiva) (s : CString) (g : Int),
      showcase_c.digital_diva_sing (some d) (some s) g =
        showcase_c.digital_diva_sing (some d) (some []) g) ∧
    (∀ (d : miku.DigitalDiva) (s1 s2 : String),
      miku.threw (d.sing s1).1 = miku.threw (d.sing s2).1 ∧ (d.sing s1).2 = (d.sing s2).2) := by
  refine ⟨fun d s1 s2 g => rfl, fun d s g => rfl, fun d s1 s2 => ?_⟩
  by_cases he : d.energy_ < 10 <;> simp [miku.DigitalDiva.sing, miku.threw, he]

/-- C18. In the C form `digital_diva_sing` called with a null performer or a
null song returns -1 and changes nothing: the performer, when there is one,
and the global performance counter are as before, whatever the energy; the
-1 is the value a call refused for low energy returns, so that the caller
gets the same outcome from both. -/
theorem sing_null_arguments :
    (∀ (song : Option CString) (g : Int),
      showcase_c.digital_diva_sing none song g =
        { ret := -1, self := none, g_performance_count := g }) ∧
    (∀ (d : showcase_c.DigitalDiva) (g : Int),
      showcase_c.digital_diva_sing (some d) none g =
        { ret := -1, self := some d, g_performance_count := g }) ∧
    (∀ (d : showcase_c.DigitalDiva) (s : CString) (g : Int), d.energy < 10 →
      showcase_c.digital_diva_sing (some d) (some s) g =
        showcase_c.digital_diva_sing (some d) none g) := by
  refine ⟨fun song g => ?_, fun d g => rfl, fun d s g he => ?_⟩
  · cases song <;> rfl
  · simp [showcase_c.digital_diva_sing, he]

/-- C18, at a concrete state: a performer at energy 5 gets the same outcome
from a call with a song, refused for low energy, as from a call with a null
song. -/
theorem sing_null_arguments_witness :
    showcase_c.digital_diva_sing
        ((showcase_c.digital_diva_create "Miku".toList showcase_c.MikuVersion.MIKU_NT true).map
          fun d => { d with energy := 5 })
        (some "Melt".toList) 3 =
      showcase_c.digital_diva_sing
        ((showcase_c.digital_diva_create "Miku".toList showcase_c.MikuVersion.MIKU_NT true).map
          fun d => { d with energy := 5 })
        none 3 :=
  sing_null_arguments.2.2 _ "Melt".toList 3 (by decide)

/-! ### The C form and the C++ form -/

/-- From equal energies, consecutive `sing` calls give corresponding statuses
and equal energies in the two forms. -/
theorem sing_all_agree (songs : List CString) :
    ∀ (titles : List String) (d : showcase_c.DigitalDiva) (c : miku.DigitalDiva) (g : Int),
      songs.length = titles.length → d.energy = c.energy_ →
      (showcase_c.sing_all d g songs).1 =
          (c.sing_all titles).1.map (fun b => if b = true then (-1 : Int) else 0) ∧
        (showcase_c.sing_all d g songs).2.1.energy = (c.sing_all titles).2.energy_ := by
  induction songs with
  | nil =>
    intro titles d c g hl he
    cases titles with
    | nil => exact ⟨rfl, he⟩
    | cons t rest => simp at hl
  | cons s rest ih =>
    intro titles d c g hl he
    cases titles with
    | nil => simp at hl
    | cons t trest =>
      have hl' : rest.length = trest.length := by simpa using hl
      by_cases hlow : d.energy < 10
      · have hlow' : c.energy_ < 10 := he ▸ hlow
        have := ih trest d c g hl' he
        simp only [showcase_c.sing_all, showcase_c.digital_diva_sing, hlow, if_true,
          Option.getD_some, miku.DigitalDiva.sing_all, miku.DigitalDiva.sing, hlow',
          miku.threw, List.map_cons, this]
        simp
      · have hlow' : ¬ c.energy_ < 10 := he ▸ hlow
        have := ih trest { d with energy := d.energy - 10 }
          { c with energy_ := c.energy_ - 10 } (wrapInt32 (g + 1)) hl'
          (by simp only [he])
        simp only [showcase_c.sing_all, showcase_c.digital_diva_sing, hlow, if_false,
          Option.getD_some, miku.DigitalDiva.sing_all, miku.DigitalDiva.sing, hlow',
          miku.threw, List.map_cons, this]
        simp

/-- C16. For every energy value, version and non-null song, the C
`digital_diva_sing` returns 0 exactly when the C++ `sing` returns normally and
-1 exactly when it throws, the energy after the call is the same in both, and
`get_version`/`getVersion` return corresponding tags; hence from equal initial
energy any sequence of `sing` calls gives the same status trace and the same
energy trace in both forms. -/
theorem c_and_cpp_agree (d : showcase_c.DigitalDiva) (c : miku.DigitalDiva) (g : Int)
    (he : d.energy = c.energy_)
    (hv : version_of_c d.voice_bank.version = c.voiceBank_.version) :
    (∀ (song : CString) (title : String),
      ((showcase_c.digital_diva_sing (some d) (some song) g).ret = 0 ↔
        miku.threw (c.sing title).1 = false) ∧
      ((showcase_c.digital_diva_sing (some d) (some song) g).ret = -1 ↔
        miku.threw (c.sing title).1 = true) ∧
      (showcase_c.digital_diva_sing (some d) (some song) g).self.map
          showcase_c.DigitalDiva.energy = some (c.sing title).2.getEnergy) ∧
    version_of_c (showcase_c.digital_diva_get_version (some d)) = c.getVersion ∧
    (∀ (songs : List CString) (titles : List String), songs.length = titles.length →
      (showcase_c.sing_all d g songs).1 =
          (c.sing_all titles).1.map (fun b => if b = true then (-1 : Int) else 0) ∧
        ∀ n : Nat,
          (showcase_c.sing_all d g (songs.take n)).2.1.energy =
            (c.sing_all (titles.take n)).2.getEnergy) := by
  refine ⟨fun song title => ?_, hv, fun songs titles hl => ⟨?_, fun n => ?_⟩⟩
  · by_cases hlow : d.energy < 10
    · have hlow' : c.energy_ < 10 := he ▸ hlow
      simp [showcase_c.digital_diva_sing, miku.DigitalDiva.sing, miku.threw,
        miku.DigitalDiva.getEnergy, hlow, hlow', he]
    · have hlow' : ¬ c.energy_ < 10 := he ▸ hlow
      simp [showcase_c.digital_diva_sing, miku.DigitalDiva.sing, miku.threw,
        miku.DigitalDiva.getEnergy, hlow, hlow', he]
  · exact (sing_all_agree songs titles d c g hl he).1
  · exact (sing_all_agree (songs.take n) (titles.take n) d c g
      (by simp only [List.length_take, hl]) he).2

/-- C16, at the freshly created performers of the two `main` functions: eleven
`sing` calls give ten successes and one failure in both forms, and the energy
after seven of them is 30 in both. -/
theorem c_and_cpp_agree_witness :
    (showcase_c.sing_all
          { name := "Hatsune Miku".toList
            voice_bank :=
              { name := "Hatsune Miku".toList, version := showcase_c.MikuVersion.MIKU_V2_CLASSIC,
                frequency_min := 80, frequency_max := 1100, is_active := true }
            energy := 100, mode := showcase_c.StageMode.STAGE_IDLE, user_data := none }
          0 (List.replicate 11 "Melt".toList)).1 =
        ((miku.DigitalDiva.create "Hatsune Miku" miku.MikuVersion.V2_Classic).sing_all
          (List.replicate 11 "Melt")).1.map (fun b => if b = true then (-1 : Int) else 0) ∧
    (showcase_c.sing_all
          { name := "Hatsune Miku".toList
            voice_bank :=
              { name := "Hatsune Miku".toList, version := showcase_c.MikuVersion.MIKU_V2_CLASSIC,
                frequency_min := 80, frequency_max := 1100, is_active := true }
            energy := 100, mode := showcase_c.StageMode.STAGE_IDLE, user_data := none }
          0 ((List.replicate 11 "Melt".toList).take 7)).2.1.energy =
        ((miku.DigitalDiva.create "Hatsune Miku" miku.MikuVersion.V2_Classic).sing_all
          ((List.replicate 11 "Melt").take 7)).2.getEnergy ∧
    ((miku.DigitalDiva.create "Hatsune Miku" miku.MikuVersion.V2_Classic).sing_all
          ((List.replicate 11 "Melt").take 7)).2.getEnergy = 30 :=
  have h := (c_and_cpp_agree
    { name := "Hatsune Miku".toList
      voice_bank :=
        { name := "Hatsune Miku".toList, version := showcase_c.MikuVersion.MIKU_V2_CLASSIC,
          frequency_min := 80, frequency_max := 1100, is_active := true }
      energy := 100, mode := showcase_c.StageMode.STAGE_IDLE, user_data := none }
    (miku.DigitalDiva.create "Hatsune Miku" miku.MikuVersion.V2_Classic) 0 rfl rfl).2.2
    (List.replicate 11 "Melt".toList) (List.replicate 11 "Melt") (by decide)
  ⟨h.1, h.2 7, by decide⟩

/-! ### The concert -/

/-- One `sing` of a `DigitalDiva` below energy 10, seen through the trace. -/
theorem traced_sing_low (d : miku.DigitalDiva) (log : List (String × Bool)) (s : String)
    (he : d.energy_ < 10) :
    miku.DigitalDiva.singable.traced.sing (d, log) s =
      (Except.error (miku.Thrown.exception "Low energy: Please recharge with leeks"),
        ((d.sing s).2, log ++ [(s, true)])) := by
  simp [miku.Singable.traced, miku.DigitalDiva.singable, miku.DigitalDiva.sing, he, miku.threw]

/-- One `sing` of a `DigitalDiva` at energy 10 or more, seen through the
trace. -/
theorem traced_sing_ok (d : miku.DigitalDiva) (log : List (String × Bool)) (s : String)
    (he : ¬ d.energy_ < 10) :
    miku.DigitalDiva.singable.traced.sing (d, log) s =
      (Except.ok ("[MIKU] Now singing: " ++ s), ((d.sing s).2, log ++ [(s, false)])) := by
  simp [miku.Singable.traced, miku.DigitalDiva.singable, miku.DigitalDiva.sing, he, miku.threw]

/-- On a `DigitalDiva`, `performConcert` lets nothing propagate, calls `sing`
once per song in list order, and leaves the performer that the same `sing`
calls in a row leave. -/
theorem performConcert_traced (songs : List String) :
    ∀ (d : miku.DigitalDiva) (log : List (String × Bool)),
      miku.performConcert miku.DigitalDiva.singable.traced (d, log) songs =
        (Except.ok (), ((d.sing_all songs).2, log ++ songs.zip (d.sing_all songs).1)) := by
  induction songs with
  | nil => intro d log; simp [miku.performConcert, miku.DigitalDiva.sing_all]
  | cons s rest ih =>
    intro d log
    by_cases he : d.energy_ < 10
    · have ht : miku.threw (d.sing s).1 = true := by simp [miku.DigitalDiva.sing, he, miku.threw]
      simp only [miku.performConcert, traced_sing_low d log s he, ih,
        miku.DigitalDiva.sing_all, ht, List.zip_cons_cons, List.append_assoc,
        List.singleton_append]
    · have ht : miku.threw (d.sing s).1 = false := by simp [miku.DigitalDiva.sing, he, miku.threw]
      simp only [miku.performConcert, traced_sing_ok d log s he, ih,
        miku.DigitalDiva.sing_all, ht, List.zip_cons_cons, List.append_assoc,
        List.singleton_append]

/-- Without the trace, `performConcert` on a `DigitalDiva` lets nothing
propagate and leaves the performer that the same `sing` calls in a row
leave. -/
theorem performConcert_eq (songs : List String) :
    ∀ d : miku.DigitalDiva,
      miku.performConcert miku.DigitalDiva.singable d songs =
        (Except.ok (), (d.sing_all songs).2) := by
  induction songs with
  | nil => intro d; simp [miku.performConcert, miku.DigitalDiva.sing_all]
  | cons s rest ih =>
    intro d
    by_cases he : d.energy_ < 10
    · have hs : miku.DigitalDiva.singable.sing d s =
          (Except.error (miku.Thrown.exception "Low energy: Please recharge with leeks"),
            (d.sing s).2) := by
        simp [miku.DigitalDiva.singable, miku.DigitalDiva.sing, he]
      simp only [miku.performConcert, hs, ih, miku.DigitalDiva.sing_all]
    · have hs : miku.DigitalDiva.singable.sing d s =
          (Except.ok ("[MIKU] Now singing: " ++ s), (d.sing s).2) := by
        simp [miku.DigitalDiva.singable, miku.DigitalDiva.sing, he]
      simp only [miku.performConcert, hs, ih, miku.DigitalDiva.sing_all]

/-- C17. For every `DigitalDiva` with energy `e` in `[0, 100]` and every list
of `n` songs, `performConcert` calls `sing` on every one of the songs in list
order (the first `min(n, floor(e/10))` calls succeed, the others throw), lets
no exception propagate to its caller, and leaves the energy at
`e - 10 * min(n, floor(e/10))`. -/
theorem performConcert_sings_every_song (d : miku.DigitalDiva) (songs : List String)
    (h0 : 0 ≤ d.energy_) (h1 : d.energy_ ≤ 100) :
    ∃ (after : miku.DigitalDiva) (trace : List (String × Bool)),
      miku.performConcert miku.DigitalDiva.singable.traced (d, []) songs =
        (Except.ok (), (after, trace)) ∧
      miku.performConcert miku.DigitalDiva.singable d songs = (Except.ok (), after) ∧
      trace.map Prod.fst = songs ∧
      trace.map Prod.snd =
        List.replicate (min songs.length (d.energy_ / 10).toNat) false ++
          List.replicate (songs.length - (d.energy_ / 10).toNat) true ∧
      after.getEnergy = d.energy_ - 10 * (min songs.length (d.energy_ / 10).toNat : Nat) := by
  have _hmax := h1
  obtain ⟨hr, he⟩ := cpp_sing_all_spec songs d h0
  have hlen : (d.sing_all songs).1.length = songs.length := by
    rw [hr, List.length_append, List.length_replicate, List.length_replicate]
    omega
  refine ⟨(d.sing_all songs).2, songs.zip (d.sing_all songs).1, ?_, performConcert_eq songs d,
    ?_, ?_, he⟩
  · rw [performConcert_traced songs d [], List.nil_append]
  · exact List.map_fst_zip _ _ (by omega)
  · rw [List.map_snd_zip _ _ (by omega)]
    exact hr

/-- C17, the call of `main` continued: a fresh performer gives a concert of
twelve songs; `sing` is called on each of them, the last two calls throw,
nothing propagates, and the energy ends at 0. -/
theorem performConcert_sings_every_song_witness :
    ∃ (after : miku.DigitalDiva) (trace : List (String × Bool)),
      miku.performConcert miku.DigitalDiva.singable.traced
          (miku.DigitalDiva.create "Hatsune Miku" miku.MikuVersion.V2_Classic, [])
          (List.replicate 12 "Melt") = (Except.ok (), (after, trace)) ∧
      trace.map Prod.fst = List.replicate 12 "Melt" ∧
      trace.map Prod.snd = List.replicate 10 false ++ List.replicate 2 true ∧
      after.getEnergy = 0 :=
  (performConcert_sings_every_song
    (miku.DigitalDiva.create "Hatsune Miku" miku.MikuVersion.V2_Classic)
    (List.replicate 12 "Melt") (by decide) (by decide)).imp
    fun _ h => h.imp fun _ h => ⟨h.1, h.2.2.1, h.2.2.2.1, h.2.2.2.2⟩

/-! ### Stage flags -/

/-- Bits of a `uint32_t` value from position 32 on are clear. -/
theorem testBit_high (x i : Nat) (hx : x < 4294967296) (hi : 32 ≤ i) : x.testBit i = false := by
  apply Nat.testBit_lt_two_pow
  calc x < 2 ^ 32 := by norm_num; exact hx
    _ ≤ 2 ^ i := Nat.pow_le_pow_right (by norm_num) hi

/-- The bits of `~x` on 32 bits. -/
theorem complement32_testBit (x i : Nat) (hx : x < 4294967296) :
    (showcase_c.complement32 x).testBit i = (decide (i < 32) && !x.testBit i) := by
  have h : showcase_c.complement32 x = 2 ^ 32 - (x + 1) := by
    have h32 : (2 : Nat) ^ 32 = 4294967296 := by norm_num
    rw [h32]
    simp only [showcase_c.complement32, Nat.mod_eq_of_lt hx]
    show (4294967295 - x : Nat) = 4294967296 - (x + 1)
    omega
  rw [h]
  exact Nat.testBit_two_pow_sub_succ (by norm_num; exact hx) i

/-- On 32-bit values `set_flag` is the bitwise or. -/
theorem set_flag_eq (flags mask : Nat) (hf : flags < 4294967296) (hm : mask < 4294967296) :
    showcase_c.set_flag flags mask = flags ||| mask := by
  have h : flags ||| mask < 2 ^ 32 :=
    Nat.or_lt_two_pow (by norm_num; exact hf) (by norm_num; exact hm)
  simp only [showcase_c.set_flag]
  exact Nat.mod_eq_of_lt (by norm_num at h; exact h)

/-- The bits of the value `clear_flag` leaves. -/
theorem clear_flag_testBit (flags mask i : Nat) (hf : flags < 4294967296)
    (hm : mask < 4294967296) :
    (showcase_c.clear_flag flags mask).testBit i = (flags.testBit i && !mask.testBit i) := by
  have h : flags &&& showcase_c.complement32 mask < 4294967296 :=
    Nat.lt_of_le_of_lt Nat.and_le_left hf
  simp only [showcase_c.clear_flag, Nat.mod_eq_of_lt h, Nat.testBit_and,
    complement32_testBit mask i hm]
  by_cases hi : i < 32
  · simp [hi]
  · simp [hi, testBit_high flags i hf (by omega)]

/-- On 32-bit values `has_flag` says that the bitwise and is not zero. -/
theorem has_flag_iff (flags mask : Nat) (hf : flags < 4294967296) :
    showcase_c.has_flag flags mask = true ↔ flags &&& mask ≠ 0 := by
  have h : flags &&& mask < 4294967296 := Nat.lt_of_le_of_lt Nat.and_le_left hf
  simp [showcase_c.has_flag, Nat.mod_eq_of_lt h]

/-- C19. Over 32-bit `StageFlags`: after `set_flag(&flags, mask)`,
`has_flag(flags, mask)` is true whenever `mask != 0`; after
`clear_flag(&flags, mask)` it is false; both helpers leave every bit outside
`mask` unchanged; and `has_flag(flags, mask)` is true exactly when `flags` and
`mask` share at least one set bit. -/
theorem stage_flag_laws (flags mask : showcase_c.StageFlags)
    (hf : flags < 4294967296) (hm : mask < 4294967296) :
    (mask ≠ 0 → showcase_c.has_flag (showcase_c.set_flag flags mask) mask = true) ∧
    showcase_c.has_flag (showcase_c.clear_flag flags mask) mask = false ∧
    (∀ i, mask.testBit i = false →
      (showcase_c.set_flag flags mask).testBit i = flags.testBit i ∧
      (showcase_c.clear_flag flags mask).testBit i = flags.testBit i) ∧
    (showcase_c.has_flag flags mask = true ↔
      ∃ i, flags.testBit i = true ∧ mask.testBit i = true) ∧
    showcase_c.set_flag flags mask < 4294967296 ∧
    showcase_c.clear_flag flags mask < 4294967296 := by
  have hset := set_flag_eq flags mask hf hm
  have hsetlt : showcase_c.set_flag flags mask < 4294967296 :=
    Nat.mod_lt _ (by norm_num)
  have hclearlt : showcase_c.clear_flag flags mask < 4294967296 :=
    Nat.mod_lt _ (by norm_num)
  refine ⟨fun hne => ?_, ?_, fun i hi => ⟨?_, ?_⟩, ?_, hsetlt, hclearlt⟩
  · rw [has_flag_iff _ _ hsetlt, hset]
    have : (flags ||| mask) &&& mask = mask := by
      apply Nat.eq_of_testBit_eq
      intro i
      rw [Nat.testBit_and, Nat.testBit_or]
      cases flags.testBit i <;> cases mask.testBit i <;> rfl
    rw [this]
    exact hne
  · have h0 : showcase_c.clear_flag flags mask &&& mask = 0 := by
      apply Nat.eq_of_testBit_eq
      intro i
      rw [Nat.testBit_and, clear_flag_testBit flags mask i hf hm, Nat.zero_testBit]
      cases flags.testBit i <;> cases mask.testBit i <;> rfl
    have hnot : ¬ showcase_c.has_flag (showcase_c.clear_flag flags mask) mask = true := by
      rw [has_flag_iff _ _ hclearlt, h0]
      exact fun h => h rfl
    exact Bool.eq_false_iff.mpr hnot
  · rw [hset, Nat.testBit_or, hi, Bool.or_false]
  · rw [clear_flag_testBit flags mask i hf hm, hi]
    simp
  · rw [has_flag_iff _ _ hf]
    constructor
    · intro hne
      obtain ⟨i, hi⟩ := Nat.ne_zero_implies_bit_true hne
      rw [Nat.testBit_and, Bool.and_eq_true] at hi
      exact ⟨i, hi⟩
    · rintro ⟨i, h1, h2⟩ h0
      have : (flags &&& mask).testBit i = true := by
        rw [Nat.testBit_and, h1, h2]
        rfl
      rw [h0, Nat.zero_testBit] at this
      exact Bool.noConfusion this

/-- C19, the calls of `main`: after `set_flag(&stage_flags, FLAG_LIGHTS |
FLAG_HOLOGRAMS)` on the flags 0, `has_flag(stage_flags, FLAG_HOLOGRAMS)` is
true, the two values having bit 2 in common; and after clearing that mask it
is false. -/
theorem stage_flag_laws_witness :
    showcase_c.has_flag
        (showcase_c.set_flag 0 (showcase_c.FLAG_LIGHTS ||| showcase_c.FLAG_HOLOGRAMS))
        showcase_c.FLAG_HOLOGRAMS = true ∧
    showcase_c.has_flag
        (showcase_c.clear_flag
          (showcase_c.set_flag 0 (showcase_c.FLAG_LIGHTS ||| showcase_c.FLAG_HOLOGRAMS))
          showcase_c.FLAG_HOLOGRAMS)
        showcase_c.FLAG_HOLOGRAMS = false :=
  ⟨(stage_flag_laws
      (showcase_c.set_flag 0 (showcase_c.FLAG_LIGHTS ||| showcase_c.FLAG_HOLOGRAMS))
      showcase_c.FLAG_HOLOGRAMS (by decide) (by decide)).2.2.2.1.mpr ⟨2, by decide, by decide⟩,
    (stage_flag_laws
      (showcase_c.set_flag 0 (showcase_c.FLAG_LIGHTS ||| showcase_c.FLAG_HOLOGRAMS))
      showcase_c.FLAG_HOLOGRAMS (by decide) (by decide)).2.1⟩
